import Mathlib

/-!
# CardputerMicTalk: the visualiser engines of `vu_spectrum.h` and `webapp.h`

A shallow embedding of the script part of the two web pages served by the device.

* JavaScript numbers are modelled by an arbitrary linearly ordered field `α`
  (exact arithmetic: rounding, `NaN` and the infinities are outside the model).
  All definitions are computable for `α = ℚ`; statements that need the true
  trigonometric functions are made at `α = ℝ`.
* `Math.cos`, `Math.sin`, `Math.sqrt` and `Math.PI` are supplied by a `MathEnv`.
* Values read from the page controls (`gain`, `decay`, `stereoSim`, `appMode`,
  `noiseAmt`) and the results of `Math.random()` are explicit arguments.
* The module-level variables of a page form a `State`; every function of the
  script is a state transformer.
-/

namespace MicTalk

/-- The functions of the host `Math` object that the spectrum processor calls. -/
structure MathEnv (α : Type) where
  cos : α → α
  sin : α → α
  sqrt : α → α
  PI : α

/-- The values of the `appMode` selector (`currentMode`). -/
inductive Mode where
  | spectrum
  | vu
  deriving DecidableEq, Repr

/-- The values of the `decay` selector. -/
inductive DecaySetting where
  | slow
  | normal
  | fast
  deriving DecidableEq, Repr

/-- The class of the status light: `status-light`, `status-light connected`,
`status-light error`. -/
inductive StatusLight where
  | idle
  | connected
  | error
  deriving DecidableEq, Repr

/-- `const numBars = 64;` -/
def numBars : ℕ := 64

instance : NeZero numBars := ⟨by decide⟩

/-- `const BASE_SENSITIVITY_SPEC = 2000;` -/
def BASE_SENSITIVITY_SPEC : ℕ := 2000

/-- `const BASE_SENSITIVITY_VU = 18000;` -/
def BASE_SENSITIVITY_VU : ℕ := 18000

/-- The module-level variables of `vu_spectrum.h`. -/
structure State (α : Type) where
  currentMode : Mode
  barValues : Fin numBars → α
  peakValues : Fin numBars → α
  peakHoldTime : Fin numBars → α
  volL : α
  volR : α
  targetVolL : α
  targetVolR : α
  isConnected : Bool
  lastTime : α
  frameCount : ℕ
  lastFpsTime : α
  statusLight : StatusLight

section Engine

variable {α : Type} [LinearOrderedField α]

/-- The state right after the script has been loaded: default mode `vu`,
all arrays filled with 0, all levels 0, not connected. -/
def State.init : State α where
  currentMode := Mode.vu
  barValues := fun _ => 0
  peakValues := fun _ => 0
  peakHoldTime := fun _ => 0
  volL := 0
  volR := 0
  targetVolL := 0
  targetVolR := 0
  isConnected := false
  lastTime := 0
  frameCount := 0
  lastFpsTime := 0
  statusLight := StatusLight.idle

/-- `switchMode()`: `mode` is the value of the `appMode` selector. The toolbar and
canvas calls have no effect on the variables. -/
def switchMode (mode : Mode) (s : State α) : State α :=
  { s with
    currentMode := mode
    barValues := fun _ => 0
    volL := 0
    volR := 0 }

/-- `disconnect()` of `vu_spectrum.h`. -/
def disconnect (s : State α) : State α :=
  { s with
    isConnected := false
    statusLight := StatusLight.idle
    barValues := fun _ => 0
    volL := 0
    volR := 0 }

/-- `Math.floor((k + 1) * 1.5)`. -/
def freqIndex (k : ℕ) : ℤ := ⌊((k : ℚ) + 1) * 1.5⌋

/-- One pass of the inner loop of `processSpectrumData`: sample `n` of the frame is
windowed and correlated with bin `f`, and added to the running `(real, imag)`. -/
def dftStep (M : MathEnv α) (waveform : List α) (f : ℤ) (acc : α × α) (n : ℕ) : α × α :=
  let N : α := (waveform.length : α)
  let window := 0.5 * (1 - M.cos ((2 * M.PI * (n : α)) / (N - 1)))
  let sample := waveform.getD n 0 * window
  let angle := (2 * M.PI * (f : α) * (n : α)) / N
  (acc.1 + sample * M.cos angle, acc.2 + sample * M.sin angle)

/-- The inner loop `for (let n = 0; n < N; n++)`, started from `real = 0, imag = 0`. -/
def dftLoop (M : MathEnv α) (waveform : List α) (f : ℤ) : α × α :=
  (List.range waveform.length).foldl (dftStep M waveform f) (0, 0)

/-- The value `val` that `processSpectrumData` computes for band `k`, after the cap
`if (val > 1.0) val = 1.0`. -/
def bandVal (M : MathEnv α) (waveform : List α) (gain : α) (k : ℕ) : α :=
  let N : α := (waveform.length : α)
  let ri := dftLoop M waveform (freqIndex k)
  let real := ri.1
  let imag := ri.2
  let mag := M.sqrt (real * real + imag * imag)
  let val := ((mag / N) * gain) / (BASE_SENSITIVITY_SPEC : α)
  if val > 1.0 then 1.0 else val

/-- The body of the outer loop of `processSpectrumData` for band `k`. -/
def processSpectrumBand (M : MathEnv α) (waveform : List α) (gain : α)
    (s : State α) (k : Fin numBars) : State α :=
  let val := bandVal M waveform gain k
  if val > s.barValues k then
    { s with barValues := Function.update s.barValues k val }
  else s

/-- `processSpectrumData(waveform)`; `gain` is the value of the `gain` selector. -/
def processSpectrumData (M : MathEnv α) (waveform : List α) (gain : α)
    (s : State α) : State α :=
  let s1 := (List.finRange numBars).foldl (processSpectrumBand M waveform gain) s
  { s1 with statusLight := StatusLight.connected }

/-- The loop `for (let v of data) if (Math.abs(v) > maxVal) maxVal = Math.abs(v);`
started from `maxVal = 0`. -/
def maxVal (data : List α) : α :=
  data.foldl (fun m v => if |v| > m then |v| else m) 0

/-- `processVuData(data)`; `gain` and `stereoSim` are read from the controls and
`rndL`, `rndR` are the two results of `Math.random()`. -/
def processVuData (data : List α) (gain : α) (stereoSim : Bool) (rndL rndR : α)
    (s : State α) : State α :=
  let baseVol := (maxVal data * gain) / (BASE_SENSITIVITY_VU : α)
  let t : α × α :=
    if stereoSim then
      let noise : α := 0.2
      let jitterL := (rndL - 0.5) * 2.0 * noise
      let jitterR := (rndR - 0.5) * 2.0 * noise
      (baseVol + (baseVol * jitterL), baseVol + (baseVol * jitterR))
    else (baseVol, baseVol)
  let tL := if t.1 > 1.2 then 1.2 else t.1
  let tR := if t.2 > 1.2 then 1.2 else t.2
  let tL := if tL < 0 then 0 else tL
  let tR := if tR < 0 then 0 else tR
  { s with
    targetVolL := tL
    targetVolR := tR
    statusLight := StatusLight.connected }

/-- The local `decayRate` of `updateSpectrumPhysics`. -/
def decayRate (setting : DecaySetting) : α :=
  let r : α := 0.8
  let r := if setting = DecaySetting.slow then 0.9 else r
  if setting = DecaySetting.fast then 0.6 else r

/-- The body of the loop of `updateSpectrumPhysics` for band `i`. -/
def spectrumPhysicsBand (setting : DecaySetting) (dt : α) (s : State α)
    (i : Fin numBars) : State α :=
  let gravity := 0.5 * dt
  let b := s.barValues i * decayRate setting
  let b := if b < 0.01 then 0 else b
  let ph : α × α :=
    if b > s.peakValues i then (b, 0.5)
    else if s.peakHoldTime i > 0 then (s.peakValues i, s.peakHoldTime i - dt)
    else (s.peakValues i - gravity, s.peakHoldTime i)
  let p := if ph.1 < 0 then 0 else ph.1
  { s with
    barValues := Function.update s.barValues i b
    peakValues := Function.update s.peakValues i p
    peakHoldTime := Function.update s.peakHoldTime i ph.2 }

/-- `updateSpectrumPhysics(dt)`; `setting` is the value of the `decay` selector. -/
def updateSpectrumPhysics (setting : DecaySetting) (dt : α) (s : State α) : State α :=
  (List.finRange numBars).foldl (spectrumPhysicsBand setting dt) s

/-- The local `speed` of `updateVuPhysics`. -/
def speed (setting : DecaySetting) : α :=
  let v : α := 8.0
  let v := if setting = DecaySetting.slow then 4.0 else v
  if setting = DecaySetting.fast then 15.0 else v

/-- `updateVuPhysics(dt)`; `setting` is the value of the `decay` selector. -/
def updateVuPhysics (setting : DecaySetting) (dt : α) (s : State α) : State α :=
  let volL :=
    if s.targetVolL > s.volL then s.volL + (s.targetVolL - s.volL) * speed setting * dt
    else s.volL + (s.targetVolL - s.volL) * (speed setting * 0.6) * dt
  let volL := if volL < 0.005 then 0 else volL
  let volR :=
    if s.targetVolR > s.volR then s.volR + (s.targetVolR - s.volR) * speed setting * dt
    else s.volR + (s.targetVolR - s.volR) * (speed setting * 0.6) * dt
  let volR := if volR < 0.005 then 0 else volR
  { s with
    volL := volL
    volR := volR }

end Engine

/-! ## The VU-only engine of `webapp.h` -/

namespace WebApp

/-- The module-level variables of `webapp.h`. -/
structure State (α : Type) where
  isConnected : Bool
  lastTime : α
  frameCount : ℕ
  lastFpsTime : α
  volL : α
  volR : α
  targetVolL : α
  targetVolR : α
  statusLight : StatusLight

section Engine

variable {α : Type} [LinearOrderedField α]

/-- The state right after the script of `webapp.h` has been loaded. -/
def State.init : State α where
  isConnected := false
  lastTime := 0
  frameCount := 0
  lastFpsTime := 0
  volL := 0
  volR := 0
  targetVolL := 0
  targetVolR := 0
  statusLight := StatusLight.idle

/-- `disconnect()` of `webapp.h`. -/
def disconnect (s : State α) : State α :=
  { s with
    isConnected := false
    statusLight := StatusLight.idle
    volL := 0
    volR := 0
    targetVolL := 0
    targetVolR := 0 }

/-- `processData(data)` of `webapp.h`; `gain`, `stereoSim` and `noise` are read from the
controls `gain`, `stereoSim` and `noiseAmt`, and `rndL`, `rndR` are the two results of
`Math.random()`. -/
def processData (data : List α) (gain : α) (stereoSim : Bool) (noise : α) (rndL rndR : α)
    (s : State α) : State α :=
  let baseVol := (maxVal data * gain) / 18000
  let t : α × α :=
    if stereoSim then
      let jitterL := (rndL - 0.5) * 2.0 * noise
      let jitterR := (rndR - 0.5) * 2.0 * noise
      (baseVol + (baseVol * jitterL), baseVol + (baseVol * jitterR))
    else (baseVol, baseVol)
  let tL := if t.1 > 1.2 then 1.2 else t.1
  let tR := if t.2 > 1.2 then 1.2 else t.2
  let tL := if tL < 0 then 0 else tL
  let tR := if tR < 0 then 0 else tR
  { s with
    targetVolL := tL
    targetVolR := tR
    statusLight := StatusLight.connected }

end Engine

end WebApp

/-! ## Derived descriptions and traces -/

section Derived

variable {α : Type} [LinearOrderedField α]

/-- The three array cells of band `i`: `barValues[i]`, `peakValues[i]`, `peakHoldTime[i]`. -/
def bandCell (s : State α) (i : Fin numBars) : α × α × α :=
  (s.barValues i, s.peakValues i, s.peakHoldTime i)

/-- The effect of one pass of the loop of `updateSpectrumPhysics` on the cells
`(value, peak, hold)` of its band, read off `spectrumPhysicsBand`. -/
def bandTick (setting : DecaySetting) (dt : α) (c : α × α × α) : α × α × α :=
  let b := c.1 * decayRate setting
  let b := if b < 0.01 then 0 else b
  let ph : α × α :=
    if b > c.2.1 then (b, 0.5)
    else if c.2.2 > 0 then (c.2.1, c.2.2 - dt)
    else (c.2.1 - 0.5 * dt, c.2.2)
  (b, if ph.1 < 0 then 0 else ph.1, ph.2)

/-- `loop(timestamp)` of `vu_spectrum.h`; `setting` is the value of the `decay` selector.
Drawing and the request for the next animation frame do not change the variables. -/
def loop (setting : DecaySetting) (timestamp : α) (s : State α) : State α :=
  if s.isConnected = false then s
  else
    let dt := (timestamp - s.lastTime) / 1000
    let s1 := { s with lastTime := timestamp, frameCount := s.frameCount + 1 }
    let s2 :=
      if timestamp - s1.lastFpsTime ≥ 1000 then
        { s1 with frameCount := 0, lastFpsTime := timestamp }
      else s1
    if s2.currentMode = Mode.spectrum then updateSpectrumPhysics setting dt s2
    else updateVuPhysics setting dt s2

/-- `connect()` of `vu_spectrum.h`, up to its synchronous end: the flag and the light are
set, the polling timer is installed and `loop(0)` is called. -/
def connect (setting : DecaySetting) (s : State α) : State α :=
  loop setting 0 { s with isConnected := true, statusLight := StatusLight.connected }

/-- A call of one of the functions of `vu_spectrum.h`, with the inputs it reads. -/
inductive Op (α : Type) where
  | processSpectrumData (waveform : List α) (gain : α)
  | processVuData (data : List α) (gain : α) (stereoSim : Bool) (rndL rndR : α)
  | updateSpectrumPhysics (setting : DecaySetting) (dt : α)
  | updateVuPhysics (setting : DecaySetting) (dt : α)
  | switchMode (mode : Mode)
  | disconnect
  | connect (setting : DecaySetting)
  | loop (setting : DecaySetting) (timestamp : α)

/-- The state after the call `o`. -/
def Op.apply (M : MathEnv α) : Op α → State α → State α
  | Op.processSpectrumData waveform gain, s => MicTalk.processSpectrumData M waveform gain s
  | Op.processVuData data gain stereoSim rndL rndR, s =>
      MicTalk.processVuData data gain stereoSim rndL rndR s
  | Op.updateSpectrumPhysics setting dt, s => MicTalk.updateSpectrumPhysics setting dt s
  | Op.updateVuPhysics setting dt, s => MicTalk.updateVuPhysics setting dt s
  | Op.switchMode mode, s => MicTalk.switchMode mode s
  | Op.disconnect, s => MicTalk.disconnect s
  | Op.connect setting, s => MicTalk.connect setting s
  | Op.loop setting timestamp, s => MicTalk.loop setting timestamp s

/-- The state after a sequence of calls, the first call first. -/
def run (M : MathEnv α) (ops : List (Op α)) (s : State α) : State α :=
  ops.foldl (fun t o => o.apply M t) s

/-- The code of one channel of `updateVuPhysics` (the same text for left and right): the
new level from the speed, `dt`, the channel's target and its old level. -/
def vuChannel (sp dt target vol : α) : α :=
  let vol1 :=
    if target > vol then vol + (target - vol) * sp * dt
    else vol + (target - vol) * (sp * 0.6) * dt
  if vol1 < 0.005 then 0 else vol1

/-- A sequence of VU physics ticks, each with its own decay setting and `dt`. -/
def vuTicks (ticks : List (DecaySetting × α)) (s : State α) : State α :=
  ticks.foldl (fun t p => updateVuPhysics p.1 p.2 t) s

/-- The largest absolute sample value of a frame, in the spec's words `max |sample|`
(0 for the empty frame). -/
def peakAbs (data : List α) : α :=
  (data.map (fun v => |v|)).foldr max 0

/-- The Hann window of the spec, `w(n) = 0.5 * (1 - cos (2π n / (N - 1)))`. -/
def hannWindow (M : MathEnv α) (N n : ℕ) : α :=
  0.5 * (1 - M.cos (2 * M.PI * (n : α) / ((N : α) - 1)))

/-- The real part of the spec: the sum over `n` in `[0, N)` of
`w(n) * x(n) * cos (2π f n / N)`. -/
def spectrumRe (M : MathEnv α) (x : List α) (f : ℤ) : α :=
  Finset.sum (Finset.range x.length) (fun n =>
    hannWindow M x.length n * x.getD n 0 *
      M.cos (2 * M.PI * (f : α) * (n : α) / (x.length : α)))

/-- The imaginary part of the spec: the sum over `n` in `[0, N)` of
`w(n) * x(n) * sin (2π f n / N)`. -/
def spectrumIm (M : MathEnv α) (x : List α) (f : ℤ) : α :=
  Finset.sum (Finset.range x.length) (fun n =>
    hannWindow M x.length n * x.getD n 0 *
      M.sin (2 * M.PI * (f : α) * (n : α) / (x.length : α)))

/-- All band values lie in `[0, 1]`. -/
def BarsInUnit (s : State α) : Prop :=
  ∀ k : Fin numBars, 0 ≤ s.barValues k ∧ s.barValues k ≤ 1

/-- The success callback of the polling timer of `vu_spectrum.h`
(`.then(json => ...)` inside `connect`): the frame `json.data` is routed by the mode. -/
def onFetchData (M : MathEnv α) (data : List α) (gain : α) (stereoSim : Bool)
    (rndL rndR : α) (s : State α) : State α :=
  if s.currentMode = Mode.spectrum then processSpectrumData M data gain s
  else processVuData data gain stereoSim rndL rndR s

/-- The failure callback of the polling timer of `vu_spectrum.h` (`.catch(e => ...)` inside
`connect`), run when the fetch or the parsing of its answer fails. -/
def onFetchError (s : State α) : State α :=
  { s with statusLight := StatusLight.error }

/-- The failure callback of the polling timer of `webapp.h` (`.catch(e => ...)`). -/
def WebApp.onFetchError (s : WebApp.State α) : WebApp.State α :=
  { s with statusLight := StatusLight.error }

/-- `loop(timestamp)` of `webapp.h`, with the VU physics written out in its body. -/
def WebApp.loop (timestamp : α) (s : WebApp.State α) : WebApp.State α :=
  if s.isConnected = false then s
  else
    let dt := (timestamp - s.lastTime) / 1000
    let s1 := { s with lastTime := timestamp, frameCount := s.frameCount + 1 }
    let s2 :=
      if timestamp - s1.lastFpsTime ≥ 1000 then
        { s1 with frameCount := 0, lastFpsTime := timestamp }
      else s1
    let speed : α := 8.0
    let volL :=
      if s2.targetVolL > s2.volL then s2.volL + (s2.targetVolL - s2.volL) * speed * dt
      else s2.volL + (s2.targetVolL - s2.volL) * (speed * 0.6) * dt
    let volL := if volL < 0.005 then 0 else volL
    let volR :=
      if s2.targetVolR > s2.volR then s2.volR + (s2.targetVolR - s2.volR) * speed * dt
      else s2.volR + (s2.targetVolR - s2.volR) * (speed * 0.6) * dt
    let volR := if volR < 0.005 then 0 else volR
    { s2 with
      volL := volL
      volR := volR }

/-- `connect()` of `webapp.h`, up to its synchronous end. -/
def WebApp.connect (s : WebApp.State α) : WebApp.State α :=
  WebApp.loop 0 { s with isConnected := true, statusLight := StatusLight.connected }

/-- The local `dt` of `loop`: `(timestamp - lastTime) / 1000`. -/
def loopDt (timestamp : α) (s : State α) : α :=
  (timestamp - s.lastTime) / 1000

/-- The spec's `snap`: a level below `0.005` becomes 0. -/
def snap (x : α) : α :=
  if x < 0.005 then 0 else x

/-- A frame, or a physics tick with `dt ≥ 0`. -/
def Op.IsFrameOrTick : Op α → Prop
  | Op.processSpectrumData _ _ => True
  | Op.processVuData _ _ _ _ _ => True
  | Op.updateSpectrumPhysics _ dt => 0 ≤ dt
  | Op.updateVuPhysics _ dt => 0 ≤ dt
  | Op.switchMode _ => False
  | Op.disconnect => False
  | Op.connect _ => False
  | Op.loop _ _ => False

/-- Both levels and both targets are non-negative. -/
def VuNonneg (s : State α) : Prop :=
  (0 ≤ s.volL ∧ 0 ≤ s.volR) ∧ (0 ≤ s.targetVolL ∧ 0 ≤ s.targetVolR)

/-- All band values and all peaks lie in `[0, 1]`. -/
def PeaksInUnit (s : State α) : Prop :=
  BarsInUnit s ∧ ∀ k : Fin numBars, 0 ≤ s.peakValues k ∧ s.peakValues k ≤ 1

/-- All simulation state is zero: every band's value, peak and hold timer, both levels and
both targets. -/
def AllZero (s : State α) : Prop :=
  (∀ k : Fin numBars, bandCell s k = (0, 0, 0)) ∧
  (s.volL = 0 ∧ s.volR = 0) ∧ (s.targetVolL = 0 ∧ s.targetVolR = 0)

/-- The fill colour of a segment of the LED meter: `colOff`, or one of the literals
`#00e676` (green), `#ffea00` (amber), `#ff1744` (red). -/
inductive LedColor where
  | off
  | green
  | amber
  | red
  deriving DecidableEq, Repr

/-- `const segs = 40;` of `drawLedMeter`. -/
def segs : ℕ := 40

/-- The colour `col` that `drawLedMeter` of `vu_spectrum.h` gives segment `i` at level
`val`. -/
def ledColor (val : α) (i : ℕ) : LedColor :=
  let pct : α := (i : α) / (segs : α)
  if val > pct then
    if pct > 0.85 then LedColor.red
    else if pct > 0.6 then LedColor.amber
    else LedColor.green
  else LedColor.off

/-- The colour `col` that `drawLedMeter` of `webapp.h` gives segment `i` at level `val`. -/
def WebApp.ledColor (val : α) (i : ℕ) : LedColor :=
  let pct : α := (i : α) / (segs : α)
  if val > pct then
    if pct > 0.85 then LedColor.red
    else if pct > 0.6 then LedColor.amber
    else LedColor.green
  else LedColor.off

/-- The local `needlePct` of `drawFancyAnalog` of `vu_spectrum.h`. -/
def needlePct (val : α) : α :=
  let safeVal := min (max val 0) 1.2
  if safeVal > 1 then 1 + (safeVal - 1) * 0.5 else safeVal

/-- The local `needlePct` of `drawFancyAnalog` of `webapp.h`. -/
def WebApp.needlePct (val : α) : α :=
  let safeVal := min (max val 0) 1.2
  let needlePct := safeVal
  if needlePct > 1 then 1 + (safeVal - 1) * 0.5 else needlePct

/-- What a physics tick does to a band value, read off `updateSpectrumPhysics`: multiply
by the decay rate and snap to 0 below `0.01`. -/
def valueTick (setting : DecaySetting) (v : α) : α :=
  if decayRate setting * v ≥ 0.01 then decayRate setting * v else 0

/-- A sequence of render ticks of `webapp.h`, given by their elapsed times: the tick with
elapsed time `d` is `loop(lastTime + 1000 * d)`. -/
def WebApp.vuTicks (dts : List α) (w : WebApp.State α) : WebApp.State α :=
  dts.foldl (fun t d => WebApp.loop (t.lastTime + 1000 * d) t) w

end Derived

/-! ## Loops that touch one array cell per pass -/

section Loops

/-- A loop whose pass `i` rewrites cell `i` from the old content of cell `i` alone, run
over indices without repetition, rewrites every visited cell once and leaves the
others alone. -/
theorem foldl_pointwise {S ι β : Type} [DecidableEq ι] (cell : S → ι → β)
    (body : S → ι → S) (F : ι → β → β)
    (hbody : ∀ s i j, cell (body s i) j = if j = i then F i (cell s i) else cell s j) :
    ∀ l : List ι, l.Nodup → ∀ (s : S) (j : ι),
      cell (l.foldl body s) j = if j ∈ l then F j (cell s j) else cell s j := by
  intro l
  induction l with
  | nil => intro _ s j; simp
  | cons a l ih =>
    intro hnd s j
    rw [List.nodup_cons] at hnd
    rw [List.foldl_cons, ih hnd.2 (body s a) j, hbody]
    by_cases hja : j = a
    · subst hja
      simp [hnd.1]
    · simp [hja]

/-- A loop whose passes all preserve a projection of the state preserves it. -/
theorem foldl_preserves {S ι γ : Type} (proj : S → γ) (body : S → ι → S)
    (hbody : ∀ s i, proj (body s i) = proj s) :
    ∀ (l : List ι) (s : S), proj (l.foldl body s) = proj s := by
  intro l
  induction l with
  | nil => intro s; rfl
  | cons a l ih => intro s; rw [List.foldl_cons, ih, hbody]

end Loops

/-! ## What the two band loops do to one band -/

section Bands

variable {α : Type} [LinearOrderedField α]

theorem spectrumPhysicsBand_cell (setting : DecaySetting) (dt : α) (s : State α)
    (i j : Fin numBars) :
    bandCell (spectrumPhysicsBand setting dt s i) j =
      if j = i then bandTick setting dt (bandCell s i) else bandCell s j := by
  by_cases hji : j = i
  · subst hji
    simp [bandCell, spectrumPhysicsBand, bandTick]
  · simp [bandCell, spectrumPhysicsBand, hji, Function.update_noteq hji]

/-- The loop of `updateSpectrumPhysics` applies `bandTick` to every band. -/
theorem updateSpectrumPhysics_cell (setting : DecaySetting) (dt : α) (s : State α)
    (k : Fin numBars) :
    bandCell (updateSpectrumPhysics setting dt s) k = bandTick setting dt (bandCell s k) := by
  have h := foldl_pointwise bandCell (spectrumPhysicsBand setting dt)
    (fun _ c => bandTick setting dt c) (spectrumPhysicsBand_cell setting dt)
    (List.finRange numBars) (List.nodup_finRange numBars) s k
  simpa [updateSpectrumPhysics, List.mem_finRange] using h

theorem updateSpectrumPhysics_barValues (setting : DecaySetting) (dt : α) (s : State α)
    (k : Fin numBars) :
    (updateSpectrumPhysics setting dt s).barValues k =
      (bandTick setting dt (bandCell s k)).1 :=
  congrArg Prod.fst (updateSpectrumPhysics_cell setting dt s k)

theorem updateSpectrumPhysics_peakValues (setting : DecaySetting) (dt : α) (s : State α)
    (k : Fin numBars) :
    (updateSpectrumPhysics setting dt s).peakValues k =
      (bandTick setting dt (bandCell s k)).2.1 :=
  congrArg (fun c => c.2.1) (updateSpectrumPhysics_cell setting dt s k)

theorem updateSpectrumPhysics_peakHoldTime (setting : DecaySetting) (dt : α) (s : State α)
    (k : Fin numBars) :
    (updateSpectrumPhysics setting dt s).peakHoldTime k =
      (bandTick setting dt (bandCell s k)).2.2 :=
  congrArg (fun c => c.2.2) (updateSpectrumPhysics_cell setting dt s k)

/-- The loop of `processSpectrumData` raises every band to its `bandVal`, if larger. -/
theorem processSpectrumData_barValues (M : MathEnv α) (waveform : List α) (gain : α)
    (s : State α) (k : Fin numBars) :
    (processSpectrumData M waveform gain s).barValues k =
      if bandVal M waveform gain k > s.barValues k then bandVal M waveform gain k
      else s.barValues k := by
  have hbody : ∀ (t : State α) (i j : Fin numBars),
      (processSpectrumBand M waveform gain t i).barValues j =
        if j = i then
          (if bandVal M waveform gain i > t.barValues i then bandVal M waveform gain i
            else t.barValues i)
        else t.barValues j := by
    intro t i j
    unfold processSpectrumBand
    by_cases hji : j = i
    · subst hji
      by_cases hv : bandVal M waveform gain j > t.barValues j <;> simp [hv]
    · by_cases hv : bandVal M waveform gain i > t.barValues i <;>
        simp [hv, hji, Function.update_noteq hji]
  have h := foldl_pointwise (fun (t : State α) i => t.barValues i)
    (processSpectrumBand M waveform gain)
    (fun i b => if bandVal M waveform gain i > b then bandVal M waveform gain i else b)
    hbody (List.finRange numBars) (List.nodup_finRange numBars) s k
  simpa [processSpectrumData, List.mem_finRange] using h

/-- The loop of `processSpectrumData` writes to `barValues` and `statusLight` only. -/
theorem processSpectrumData_frame (M : MathEnv α) (waveform : List α) (gain : α)
    (s : State α) :
    processSpectrumData M waveform gain s =
      { s with
        barValues := (processSpectrumData M waveform gain s).barValues
        statusLight := StatusLight.connected } := by
  have hbody : ∀ (t : State α) (i : Fin numBars),
      { processSpectrumBand M waveform gain t i with barValues := s.barValues } =
        { t with barValues := s.barValues } := by
    intro t i
    unfold processSpectrumBand
    by_cases hv : bandVal M waveform gain i > t.barValues i <;> simp [hv]
  have h := foldl_preserves (fun t : State α => { t with barValues := s.barValues })
    (processSpectrumBand M waveform gain) hbody (List.finRange numBars) s
  simp only [processSpectrumData]
  generalize List.foldl (processSpectrumBand M waveform gain) s (List.finRange numBars) = t at h
  cases t
  cases s
  simp_all

/-- The loop of `updateSpectrumPhysics` writes to the three band arrays only. -/
theorem updateSpectrumPhysics_frame (setting : DecaySetting) (dt : α) (s : State α) :
    updateSpectrumPhysics setting dt s =
      { s with
        barValues := (updateSpectrumPhysics setting dt s).barValues
        peakValues := (updateSpectrumPhysics setting dt s).peakValues
        peakHoldTime := (updateSpectrumPhysics setting dt s).peakHoldTime } := by
  have h := foldl_preserves
    (fun t : State α => { t with
      barValues := s.barValues, peakValues := s.peakValues, peakHoldTime := s.peakHoldTime })
    (spectrumPhysicsBand setting dt) (fun t i => by simp [spectrumPhysicsBand])
    (List.finRange numBars) s
  simp only [updateSpectrumPhysics]
  generalize List.foldl (spectrumPhysicsBand setting dt) s (List.finRange numBars) = t at h
  cases t
  cases s
  simp_all

theorem processSpectrumData_peakValues (M : MathEnv α) (waveform : List α) (gain : α)
    (s : State α) : (processSpectrumData M waveform gain s).peakValues = s.peakValues :=
  by rw [processSpectrumData_frame]

theorem processSpectrumData_peakHoldTime (M : MathEnv α) (waveform : List α) (gain : α)
    (s : State α) : (processSpectrumData M waveform gain s).peakHoldTime = s.peakHoldTime :=
  by rw [processSpectrumData_frame]

theorem processSpectrumData_cell (M : MathEnv α) (waveform : List α) (gain : α)
    (s : State α) (k : Fin numBars) :
    bandCell (processSpectrumData M waveform gain s) k =
      ((if bandVal M waveform gain k > (bandCell s k).1 then bandVal M waveform gain k
        else (bandCell s k).1), (bandCell s k).2.1, (bandCell s k).2.2) := by
  simp only [bandCell, processSpectrumData_barValues, processSpectrumData_peakValues,
    processSpectrumData_peakHoldTime]

end Bands

/-! ## Range of the band values -/

section Range

variable {α : Type} [LinearOrderedField α]

theorem decayRate_slow : decayRate DecaySetting.slow = (0.9 : α) := by
  simp [decayRate]

theorem decayRate_normal : decayRate DecaySetting.normal = (0.8 : α) := by
  simp [decayRate]

theorem decayRate_fast : decayRate DecaySetting.fast = (0.6 : α) := by
  simp [decayRate]

theorem decayRate_pos (setting : DecaySetting) : (0 : α) < decayRate setting := by
  cases setting
  · rw [decayRate_slow]; norm_num
  · rw [decayRate_normal]; norm_num
  · rw [decayRate_fast]; norm_num

theorem decayRate_lt_one (setting : DecaySetting) : decayRate setting < (1 : α) := by
  cases setting
  · rw [decayRate_slow]; norm_num
  · rw [decayRate_normal]; norm_num
  · rw [decayRate_fast]; norm_num

theorem bandVal_le_one (M : MathEnv α) (waveform : List α) (gain : α) (k : ℕ) :
    bandVal M waveform gain k ≤ 1 := by
  have h10 : (1.0 : α) = 1 := by norm_num
  unfold bandVal
  simp only [h10]
  split_ifs with h
  · exact le_refl _
  · exact not_lt.mp h

theorem bandTick_value_range (setting : DecaySetting) (dt : α) (c : α × α × α)
    (h0 : 0 ≤ c.1) (h1 : c.1 ≤ 1) :
    0 ≤ (bandTick setting dt c).1 ∧ (bandTick setting dt c).1 ≤ 1 := by
  have hp : (0 : α) < decayRate setting := decayRate_pos setting
  have hl : decayRate setting < (1 : α) := decayRate_lt_one setting
  simp only [bandTick]
  split_ifs with h
  · exact ⟨le_refl _, zero_le_one⟩
  · constructor
    · positivity
    · nlinarith

theorem BarsInUnit.processSpectrumData {s : State α} (h : BarsInUnit s) (M : MathEnv α)
    (waveform : List α) (gain : α) : BarsInUnit (processSpectrumData M waveform gain s) := by
  intro k
  rw [processSpectrumData_barValues]
  split_ifs with hv
  · exact ⟨le_of_lt (lt_of_le_of_lt (h k).1 hv), bandVal_le_one M waveform gain k⟩
  · exact h k

theorem BarsInUnit.updateSpectrumPhysics {s : State α} (h : BarsInUnit s)
    (setting : DecaySetting) (dt : α) : BarsInUnit (updateSpectrumPhysics setting dt s) := by
  intro k
  rw [updateSpectrumPhysics_barValues]
  exact bandTick_value_range setting dt (bandCell s k) (h k).1 (h k).2

theorem BarsInUnit.of_barValues_eq {s t : State α} (h : BarsInUnit s)
    (e : t.barValues = s.barValues) : BarsInUnit t := by
  intro k
  rw [e]
  exact h k

/-- The shape of `loop`: nothing when not connected, otherwise one physics step of the
active mode on a state that differs from the old one in the timing variables only. -/
theorem loop_eq (setting : DecaySetting) (timestamp : α) (s : State α) :
    loop setting timestamp s = s ∨
    ∃ s2 : State α,
      (s2.barValues = s.barValues ∧ s2.peakValues = s.peakValues ∧
        s2.peakHoldTime = s.peakHoldTime) ∧
      (s2.volL = s.volL ∧ s2.volR = s.volR ∧ s2.targetVolL = s.targetVolL ∧
        s2.targetVolR = s.targetVolR) ∧
      (loop setting timestamp s =
          updateSpectrumPhysics setting ((timestamp - s.lastTime) / 1000) s2 ∨
        loop setting timestamp s =
          updateVuPhysics setting ((timestamp - s.lastTime) / 1000) s2) := by
  unfold MicTalk.loop
  by_cases hc : s.isConnected = false
  · rw [if_pos hc]; exact Or.inl rfl
  · rw [if_neg hc]
    simp only
    right
    split <;> split
    · refine ⟨_, ?_, ?_, Or.inl rfl⟩
      · exact ⟨rfl, rfl, rfl⟩
      · exact ⟨rfl, rfl, rfl, rfl⟩
    · refine ⟨_, ?_, ?_, Or.inr rfl⟩
      · exact ⟨rfl, rfl, rfl⟩
      · exact ⟨rfl, rfl, rfl, rfl⟩
    · refine ⟨_, ?_, ?_, Or.inl rfl⟩
      · exact ⟨rfl, rfl, rfl⟩
      · exact ⟨rfl, rfl, rfl, rfl⟩
    · refine ⟨_, ?_, ?_, Or.inr rfl⟩
      · exact ⟨rfl, rfl, rfl⟩
      · exact ⟨rfl, rfl, rfl, rfl⟩

theorem updateVuPhysics_barValues (setting : DecaySetting) (dt : α) (s : State α) :
    (updateVuPhysics setting dt s).barValues = s.barValues := rfl

theorem BarsInUnit.loop {s : State α} (h : BarsInUnit s) (setting : DecaySetting)
    (timestamp : α) : BarsInUnit (loop setting timestamp s) := by
  rcases loop_eq setting timestamp s with e | ⟨s2, ⟨hb, _, _⟩, _, e | e⟩
  · rw [e]; exact h
  · rw [e]; exact BarsInUnit.updateSpectrumPhysics (h.of_barValues_eq hb) setting _
  · rw [e]
    exact (h.of_barValues_eq hb).of_barValues_eq (updateVuPhysics_barValues setting _ s2)

theorem BarsInUnit.connect {s : State α} (h : BarsInUnit s) (setting : DecaySetting) :
    BarsInUnit (connect setting s) := by
  have h1 : BarsInUnit
      ({ s with isConnected := true, statusLight := StatusLight.connected } : State α) :=
    fun k => h k
  exact h1.loop setting 0

theorem BarsInUnit.apply {s : State α} (h : BarsInUnit s) (M : MathEnv α) (o : Op α) :
    BarsInUnit (o.apply M s) := by
  cases o with
  | processSpectrumData waveform gain => exact h.processSpectrumData M waveform gain
  | processVuData data gain stereoSim rndL rndR => exact fun k => h k
  | updateSpectrumPhysics setting dt => exact h.updateSpectrumPhysics setting dt
  | updateVuPhysics setting dt => exact fun k => h k
  | switchMode mode => intro k; exact ⟨le_refl _, zero_le_one⟩
  | disconnect => intro k; exact ⟨le_refl _, zero_le_one⟩
  | connect setting => exact h.connect setting
  | loop setting timestamp => exact h.loop setting timestamp

theorem BarsInUnit.run (M : MathEnv α) (ops : List (Op α)) :
    ∀ s : State α, BarsInUnit s → BarsInUnit (run M ops s) := by
  induction ops with
  | nil => intro s h; exact h
  | cons o ops ih => intro s h; exact ih _ (h.apply M o)

/-- C1: in every state reached from the initial all-zero state by any sequence of calls of
the engine (`processSpectrumData` with any frame and gain, `updateSpectrumPhysics` with any
decay setting and `dt`, `switchMode`, `disconnect`, and the other functions as well), every
band value lies in `[0, 1]`. -/
theorem C1_barValues_in_unit_interval (M : MathEnv α) (ops : List (Op α))
    (k : Fin numBars) :
    0 ≤ (run M ops State.init).barValues k ∧ (run M ops State.init).barValues k ≤ 1 :=
  BarsInUnit.run M ops State.init (fun _ => ⟨le_refl _, zero_le_one⟩) k

end Range

/-! ## A frame with a known spectrum, over the reals -/

section RealFrame

/-- With the true `cos`, `sin`, `sqrt` and `π`, the three-sample frame `[0, 6000, 0]` at
gain 1 gives band 1 (bin 3) the value 1: the Hann window keeps the middle sample only, and
the angle of bin 3 at `n = 1` is a full turn. -/
theorem bandVal_real_frame :
    bandVal (⟨Real.cos, Real.sin, Real.sqrt, Real.pi⟩ : MathEnv ℝ) [0, 6000, 0] 1 1 = 1 := by
  have hf : freqIndex 1 = 3 := by
    unfold freqIndex
    rw [Int.floor_eq_iff]
    norm_num
  have h1 : (2 * Real.pi * ((1 : ℕ) : ℝ)) / (((3 : ℕ) : ℝ) - 1) = Real.pi := by
    push_cast; ring
  have h2 : (2 * Real.pi * ((3 : ℤ) : ℝ) * ((1 : ℕ) : ℝ)) / ((3 : ℕ) : ℝ) = 2 * Real.pi := by
    push_cast; ring
  have hloop : dftLoop (⟨Real.cos, Real.sin, Real.sqrt, Real.pi⟩ : MathEnv ℝ)
      [0, 6000, 0] 3 = (6000, 0) := by
    simp only [dftLoop, List.length_cons, List.length_nil, List.range_succ, List.range_zero,
      List.nil_append, List.cons_append, List.foldl_cons, List.foldl_nil, dftStep, h1, h2,
      Real.cos_pi, Real.cos_two_pi, Real.sin_two_pi]
    norm_num
  have hs : Real.sqrt (6000 * 6000 + 0 * 0) = 6000 := by
    rw [mul_zero, add_zero, Real.sqrt_mul_self (by norm_num)]
  unfold bandVal
  simp only [hf, hloop, hs, BASE_SENSITIVITY_SPEC, List.length_cons, List.length_nil]
  norm_num

end RealFrame

/-! ## C2: peak against value after a physics tick -/

section PeakAboveValue

variable {α : Type} [LinearOrderedField α]

theorem bandTick_peak_ge (setting : DecaySetting) (dt : α) (c : α × α × α) (hdt : 0 ≤ dt) :
    (bandTick setting dt c).1 - 0.5 * dt ≤ (bandTick setting dt c).2.1 ∧
    ((0 < c.2.2 ∨ c.2.1 < (bandTick setting dt c).1) →
      (bandTick setting dt c).1 ≤ (bandTick setting dt c).2.1) := by
  have hg : (0 : α) ≤ 0.5 * dt := by positivity
  simp only [bandTick]
  split_ifs <;> refine ⟨by linarith, fun h => ?_⟩ <;>
    rcases h with h | h <;> linarith

/-- C2 (counterexample): with the true `Math` functions, one frame `[0, 6000, 0]` at gain 1
followed by three physics ticks of one second each at the normal setting leaves band 1 with
value `0.512` and peak `0.3`: after the third tick the peak is below the value. -/
theorem C2_peak_below_value_after_tick :
    bandCell
      (updateSpectrumPhysics DecaySetting.normal (1 : ℝ)
        (run (⟨Real.cos, Real.sin, Real.sqrt, Real.pi⟩ : MathEnv ℝ)
          [Op.processSpectrumData [0, 6000, 0] 1,
           Op.updateSpectrumPhysics DecaySetting.normal 1,
           Op.updateSpectrumPhysics DecaySetting.normal 1] State.init)) 1
      = (0.512, 0.3, -0.5) := by
  have h0 : bandCell (State.init : State ℝ) 1 = (0, 0, 0) := rfl
  have hv : bandVal (⟨Real.cos, Real.sin, Real.sqrt, Real.pi⟩ : MathEnv ℝ) [0, 6000, 0] 1
      ((1 : Fin numBars) : ℕ) = 1 := bandVal_real_frame
  simp only [run, List.foldl_cons, List.foldl_nil, Op.apply, updateSpectrumPhysics_cell,
    processSpectrumData_cell, hv, h0]
  norm_num [bandTick, decayRate_normal]

/-- C2 (amended): after a physics tick with `dt ≥ 0` from any state, every band has
`peak ≥ value - 0.5 * dt`, and `peak ≥ value` whenever the band's hold timer was positive
before the tick or the decayed value exceeds the old peak (the peak is captured or held);
only a band whose peak falls by gravity in that tick can end below its value. -/
theorem C2_peak_ge_value_unless_gravity (setting : DecaySetting) (dt : α) (s : State α)
    (k : Fin numBars) (hdt : 0 ≤ dt) :
    (updateSpectrumPhysics setting dt s).barValues k - 0.5 * dt ≤
        (updateSpectrumPhysics setting dt s).peakValues k ∧
    ((0 < s.peakHoldTime k ∨
        s.peakValues k < (updateSpectrumPhysics setting dt s).barValues k) →
      (updateSpectrumPhysics setting dt s).barValues k ≤
        (updateSpectrumPhysics setting dt s).peakValues k) := by
  rw [updateSpectrumPhysics_barValues, updateSpectrumPhysics_peakValues]
  exact bandTick_peak_ge setting dt (bandCell s k) hdt

theorem C2_peak_ge_value_unless_gravity_witness :
    (0 : ℚ) ≤ 1 ∧
    (updateSpectrumPhysics DecaySetting.normal (1 : ℚ) State.init).barValues 0 - 0.5 * 1 ≤
      (updateSpectrumPhysics DecaySetting.normal (1 : ℚ) State.init).peakValues 0 :=
  ⟨by norm_num,
    (C2_peak_ge_value_unless_gravity DecaySetting.normal (1 : ℚ) State.init 0 (by norm_num)).1⟩

end PeakAboveValue

/-! ## C3, C4: what the resets clear -/

section Resets

variable {α : Type} [LinearOrderedField α]

/-- C4 (counterexample): after the VU frame `[9000]` at gain 1 without stereo simulation the
left target is `1/2`, and `switchMode` to the spectrum mode leaves it at `1/2`, not at 0. -/
theorem C4_switchMode_keeps_target :
    (switchMode Mode.spectrum
      (processVuData [9000] 1 false 0 0 (State.init : State ℚ))).targetVolL = 1 / 2 := by
  norm_num [switchMode, processVuData, maxVal, BASE_SENSITIVITY_VU]

/-- C4 (amended): for every state and either target mode, after `switchMode` the mode is the
selected one and every band's value and both channels' current level are 0; the peaks, the
hold timers and both targets are left as they were. -/
theorem C4_switchMode_zeroes_values_and_levels (mode : Mode) (s : State α) :
    (switchMode mode s).currentMode = mode ∧
    ((∀ k, (switchMode mode s).barValues k = 0) ∧ (switchMode mode s).volL = 0 ∧
      (switchMode mode s).volR = 0) ∧
    ((switchMode mode s).peakValues = s.peakValues ∧
      (switchMode mode s).peakHoldTime = s.peakHoldTime ∧
      (switchMode mode s).targetVolL = s.targetVolL ∧
      (switchMode mode s).targetVolR = s.targetVolR) :=
  ⟨rfl, ⟨fun _ => rfl, rfl, rfl⟩, ⟨rfl, rfl, rfl, rfl⟩⟩

end Resets

/-! ## C5: the peak-hold schedule -/

section PeakHold

variable {α : Type} [LinearOrderedField α]

theorem bandCell_iterate (setting : DecaySetting) (dt : α) (s : State α) (k : Fin numBars)
    (n : ℕ) :
    bandCell ((updateSpectrumPhysics setting dt)^[n] s) k =
      (bandTick setting dt)^[n] (bandCell s k) := by
  induction n with
  | zero => rfl
  | succ n ih =>
    rw [Function.iterate_succ_apply', Function.iterate_succ_apply',
      updateSpectrumPhysics_cell, ih]

theorem peakValues_iterate (setting : DecaySetting) (dt : α) (s : State α)
    (k : Fin numBars) (n : ℕ) :
    ((updateSpectrumPhysics setting dt)^[n] s).peakValues k =
      ((bandTick setting dt)^[n] (bandCell s k)).2.1 :=
  congrArg (fun c => c.2.1) (bandCell_iterate setting dt s k n)

theorem bandTick_silent_hold (setting : DecaySetting) (dt p h : α) (hp : 0 ≤ p)
    (hh : 0 < h) : bandTick setting dt (0, p, h) = (0, p, h - dt) := by
  have h1 : ¬ (0 : α) > p := not_lt.mpr hp
  have h2 : ¬ p < 0 := not_lt.mpr hp
  have h3 : (0 : α) < 0.01 := by norm_num
  simp [bandTick, h1, h2, h3, hh]

theorem bandTick_silent_fall (setting : DecaySetting) (dt p h : α) (hp : 0 ≤ p)
    (hh : h ≤ 0) : bandTick setting dt (0, p, h) = (0, max 0 (p - 0.5 * dt), h) := by
  have h1 : ¬ (0 : α) > p := not_lt.mpr hp
  have h2 : ¬ (0 : α) < h := not_lt.mpr hh
  have h3 : (0 : α) < 0.01 := by norm_num
  have h4 : (if p - 0.5 * dt < 0 then 0 else p - 0.5 * dt) = max 0 (p - 0.5 * dt) := by
    split_ifs with hc
    · exact (max_eq_left (le_of_lt hc)).symm
    · exact (max_eq_right (not_lt.mp hc)).symm
  simp only [bandTick, zero_mul, h3, if_true, gt_iff_lt, h2, if_false]
  rw [if_neg h1]
  simp only [if_false, h4]

/-- C5 (counterexample): with `X = 1` and ticks of `0.3` s, after two ticks `0.6` simulated
seconds have passed, yet the peak is still 1 and not `1 - 0.5 * (0.6 - 0.5) = 0.95`: the
hold ends only at the first tick that finds the timer at or below 0. -/
theorem C5_peak_still_held_after_hold_time :
    (2 : ℚ) * 0.3 > 0.5 ∧
    ((updateSpectrumPhysics DecaySetting.normal (0.3 : ℚ))^[2]
      { (State.init : State ℚ) with
        peakValues := fun _ => 1
        peakHoldTime := fun _ => 0.5 }).peakValues 0 = 1 ∧
    (1 : ℚ) ≠ max 0 (1 - 0.5 * (2 * 0.3 - 0.5)) := by
  refine ⟨by norm_num, ?_, by norm_num⟩
  rw [peakValues_iterate]
  show ((bandTick DecaySetting.normal (0.3 : ℚ))^[2] (0, 1, 0.5)).2.1 = 1
  norm_num [Function.iterate_succ, bandTick, decayRate_normal]

/-- The cells of a silent band after `n` ticks: `j ≤ n` of the ticks found the hold timer
positive and took `dt` off it, the other `n - j` lowered the peak by `0.5 * dt` each; once a
tick has found the timer at or below 0 all later ones do, and the timer never falls below
`-dt`. -/
theorem silent_band_schedule (setting : DecaySetting) (dt X : α) (hX : 0 ≤ X)
    (hdt : 0 < dt) :
    ∀ n : ℕ, ∃ j : ℕ, j ≤ n ∧
      (bandTick setting dt)^[n] (0, X, 0.5) =
        (0, max 0 (X - 0.5 * dt * ((n : α) - (j : α))), 0.5 - (j : α) * dt) ∧
      (j < n → 0.5 - (j : α) * dt ≤ 0) ∧ 0 < 0.5 - (j : α) * dt + dt := by
  intro n
  induction n with
  | zero =>
    refine ⟨0, le_refl 0, ?_, fun h => absurd h (lt_irrefl 0), ?_⟩
    · simp [hX]
    · simp only [Nat.cast_zero, zero_mul, sub_zero]
      positivity
  | succ n ih =>
    obtain ⟨j, hjn, e, hfall, hlow⟩ := ih
    rw [Function.iterate_succ_apply', e]
    by_cases hh : 0 < 0.5 - (j : α) * dt
    · have hj : j = n := by
        rcases Nat.lt_or_ge j n with h | h
        · exact absurd hh (not_lt.mpr (hfall h))
        · exact le_antisymm hjn h
      subst hj
      refine ⟨j + 1, le_refl _, ?_, fun h => absurd h (lt_irrefl _), ?_⟩
      · rw [bandTick_silent_hold setting dt _ _ (le_max_left _ _) hh]
        push_cast
        congr 2
        · congr 1
          ring
        · ring
      · push_cast
        linarith
    · have hle : 0.5 - (j : α) * dt ≤ 0 := not_lt.mp hh
      have hg : (0 : α) ≤ 0.5 * dt := by positivity
      refine ⟨j, Nat.le_succ_of_le hjn, ?_, fun _ => hle, hlow⟩
      rw [bandTick_silent_fall setting dt _ _ (le_max_left _ _) hle]
      have hmax : max 0 (max 0 (X - 0.5 * dt * ((n : α) - (j : α))) - 0.5 * dt) =
          max 0 (X - 0.5 * dt * (((n + 1 : ℕ) : α) - (j : α))) := by
        push_cast
        rcases le_total (X - 0.5 * dt * ((n : α) - (j : α))) 0 with hc | hc
        · rw [max_eq_left hc, max_eq_left (by linarith), max_eq_left (by linarith)]
        · rw [max_eq_right hc]
          congr 1
          ring
      rw [hmax]

/-- C5 (amended): for every `X > 0` (so for every `X` in `(0, 1]`), every uniform tick
length `dt > 0` and a band in state value 0, peak `X`, hold timer `0.5` that receives no
further frames: after `n` ticks the peak equals `X` as long as `n * dt ≤ 0.5`; once
`n * dt > 0.5` it lies between the claimed schedule and the same schedule one tick late,
`max 0 (X - 0.5 * (n * dt - 0.5)) ≤ peak ≤ max 0 (X - 0.5 * ((n - 1) * dt - 0.5))`, because
the hold ends at the first tick that finds the timer at or below 0; and every tick after
`(n - 1) * dt ≥ 0.5` lowers the peak by exactly `0.5 * dt`, floored at 0. -/
theorem C5_peak_hold_schedule (setting : DecaySetting) (X dt : α) (n : ℕ) (s : State α)
    (k : Fin numBars) (hX0 : 0 < X) (hdt : 0 < dt)
    (hs : bandCell s k = (0, X, 0.5)) :
    ((n : α) * dt ≤ 0.5 →
      ((updateSpectrumPhysics setting dt)^[n] s).peakValues k = X) ∧
    (0.5 < (n : α) * dt →
      max 0 (X - 0.5 * ((n : α) * dt - 0.5)) ≤
          ((updateSpectrumPhysics setting dt)^[n] s).peakValues k ∧
        ((updateSpectrumPhysics setting dt)^[n] s).peakValues k ≤
          max 0 (X - 0.5 * (((n : α) - 1) * dt - 0.5))) ∧
    (0.5 ≤ ((n : α) - 1) * dt →
      ((updateSpectrumPhysics setting dt)^[n + 1] s).peakValues k =
        max 0 (((updateSpectrumPhysics setting dt)^[n] s).peakValues k - 0.5 * dt)) := by
  obtain ⟨j, hjn, e, hfall, hlow⟩ := silent_band_schedule setting dt X (le_of_lt hX0) hdt n
  have hjn' : (j : α) ≤ (n : α) := by exact_mod_cast hjn
  have hp : ((updateSpectrumPhysics setting dt)^[n] s).peakValues k =
      max 0 (X - 0.5 * dt * ((n : α) - (j : α))) := by
    rw [peakValues_iterate, hs, e]
  refine ⟨fun h => ?_, fun h => ⟨?_, ?_⟩, fun h => ?_⟩
  · have hj : j = n := by
      rcases Nat.lt_or_ge j n with hlt | hge
      · have h1 := hfall hlt
        have h2 : (j : α) + 1 ≤ (n : α) := by exact_mod_cast hlt
        nlinarith
      · exact le_antisymm hjn hge
    rw [hp, hj, sub_self, mul_zero, sub_zero]
    exact max_eq_right (le_of_lt hX0)
  · rw [hp]
    apply max_le_max (le_refl 0)
    rcases Nat.lt_or_ge j n with hlt | hge
    · have h1 := hfall hlt
      nlinarith
    · have hj : j = n := le_antisymm hjn hge
      rw [hj, sub_self, mul_zero, sub_zero]
      linarith
  · rw [hp]
    apply max_le_max (le_refl 0)
    nlinarith
  · have hle : 0.5 - (j : α) * dt ≤ 0 := by
      rcases Nat.lt_or_ge j n with hlt | hge
      · exact hfall hlt
      · have hj : j = n := le_antisymm hjn hge
        rw [hj]
        nlinarith
    rw [hp, peakValues_iterate, hs, Function.iterate_succ_apply', e,
      bandTick_silent_fall setting dt _ _ (le_max_left _ _) hle]

/-- C5 (witness): `X = 1`, ticks of `0.25` s at the fast setting, band 5: the peak is still
1 after 2 ticks (`0.5` s). -/
theorem C5_peak_hold_schedule_witness :
    ((2 : ℕ) : ℚ) * 0.25 ≤ 0.5 ∧
    ((updateSpectrumPhysics DecaySetting.fast (0.25 : ℚ))^[2]
      { (State.init : State ℚ) with
        peakValues := fun _ => 1
        peakHoldTime := fun _ => 0.5 }).peakValues 5 = 1 :=
  ⟨by norm_num,
    (C5_peak_hold_schedule DecaySetting.fast (1 : ℚ) 0.25 2
      { (State.init : State ℚ) with
        peakValues := fun _ => 1
        peakHoldTime := fun _ => 0.5 } 5
      (by norm_num) (by norm_num) rfl).1 (by norm_num)⟩

end PeakHold

/-! ## C6: the attack branch of the VU physics -/

section Attack

variable {α : Type} [LinearOrderedField α]

theorem updateVuPhysics_volL (setting : DecaySetting) (dt : α) (s : State α) :
    (updateVuPhysics setting dt s).volL = vuChannel (speed setting) dt s.targetVolL s.volL :=
  rfl

theorem updateVuPhysics_volR (setting : DecaySetting) (dt : α) (s : State α) :
    (updateVuPhysics setting dt s).volR = vuChannel (speed setting) dt s.targetVolR s.volR :=
  rfl

theorem speed_slow : speed DecaySetting.slow = (4.0 : α) := by
  simp [speed]

theorem speed_normal : speed DecaySetting.normal = (8.0 : α) := by
  simp [speed]

theorem speed_fast : speed DecaySetting.fast = (15.0 : α) := by
  simp [speed]

theorem speed_pos (setting : DecaySetting) : (0 : α) < speed setting := by
  cases setting
  · rw [speed_slow]; norm_num
  · rw [speed_normal]; norm_num
  · rw [speed_fast]; norm_num

/-- One channel, one tick, with the level at or below the target and either 0 or at least
`0.005`: the level does not fall, stays at or below the target and is again 0 or at least
`0.005`. -/
theorem vuChannel_attack (sp dt T v : α) (hsp : 0 < sp) (hdt : 0 ≤ dt) (hc : dt * sp < 1)
    (hv0 : 0 ≤ v) (hvT : v ≤ T) (hsnap : v = 0 ∨ 0.005 ≤ v) :
    v ≤ vuChannel sp dt T v ∧ vuChannel sp dt T v ≤ T ∧
      (vuChannel sp dt T v = 0 ∨ 0.005 ≤ vuChannel sp dt T v) := by
  have hc0 : 0 ≤ dt * sp := by positivity
  have hT0 : 0 ≤ T := le_trans hv0 hvT
  unfold vuChannel
  by_cases hT : T > v
  · have h1 : v ≤ v + (T - v) * sp * dt := by nlinarith
    have h2 : v + (T - v) * sp * dt ≤ T := by nlinarith
    simp only [if_pos hT]
    split_ifs with hs
    · refine ⟨?_, hT0, Or.inl rfl⟩
      rcases hsnap with h | h
      · exact le_of_eq h
      · linarith
    · exact ⟨h1, h2, Or.inr (not_lt.mp hs)⟩
  · have hvT2 : v = T := le_antisymm hvT (not_lt.mp hT)
    have h1 : v + (T - v) * (sp * 0.6) * dt = v := by rw [hvT2]; ring
    simp only [if_neg hT, h1]
    split_ifs with hs
    · refine ⟨?_, hT0, Or.inl rfl⟩
      rcases hsnap with h | h
      · exact le_of_eq h
      · linarith
    · exact ⟨le_refl v, hvT, Or.inr (not_lt.mp hs)⟩

end Attack

/-! ## C7: the VU targets without stereo simulation -/

section Targets

variable {α : Type} [LinearOrderedField α]

theorem peakAbs_nonneg (data : List α) : 0 ≤ peakAbs data := by
  induction data with
  | nil => exact le_refl _
  | cons v l _ => exact le_trans (abs_nonneg v) (le_max_left _ _)

theorem maxVal_foldl (data : List α) :
    ∀ m : α, 0 ≤ m →
      data.foldl (fun m v => if |v| > m then |v| else m) m = max m (peakAbs data) := by
  induction data with
  | nil =>
    intro m hm
    simp [peakAbs, hm]
  | cons v l ih =>
    intro m hm
    have hstep : (if |v| > m then |v| else m) = max m |v| := by
      split_ifs with h
      · exact (max_eq_right (le_of_lt h)).symm
      · exact (max_eq_left (not_lt.mp h)).symm
    rw [List.foldl_cons, hstep, ih _ (le_trans hm (le_max_left _ _)), max_assoc]
    rfl

/-- The loop of `processVuData` computes the largest absolute sample value. -/
theorem maxVal_eq_peakAbs (data : List α) : maxVal data = peakAbs data := by
  unfold maxVal
  rw [maxVal_foldl data 0 (le_refl 0), max_eq_right (peakAbs_nonneg data)]

theorem cap_eq (x : α) :
    (if (if x > 1.2 then 1.2 else x) < 0 then 0 else (if x > 1.2 then 1.2 else x)) =
      max 0 (min 1.2 x) := by
  have h12 : (0 : α) < 1.2 := by norm_num
  by_cases h : x > 1.2
  · rw [if_pos h, if_neg (not_lt.mpr (le_of_lt h12)), min_eq_left (le_of_lt h),
      max_eq_right (le_of_lt h12)]
  · rw [if_neg h, min_eq_right (not_lt.mp h)]
    split_ifs with h0
    · exact (max_eq_left (le_of_lt h0)).symm
    · exact (max_eq_right (not_lt.mp h0)).symm

/-- C7 (counterexample): for the frame `[32767]` at gain 12 without stereo simulation the
left target is `1.2`, while `max |sample| * gain / 18000` is `32767 * 12 / 18000 > 21`. -/
theorem C7_target_capped :
    (processVuData [32767] 12 false 0 0 (State.init : State ℚ)).targetVolL = 1.2 ∧
    (1.2 : ℚ) ≠ |32767| * 12 / 18000 := by
  constructor
  · norm_num [processVuData, maxVal, BASE_SENSITIVITY_VU]
  · norm_num [abs_of_pos]

/-- C7 (amended): with stereo simulation disabled, for every frame and every gain, both
engines leave `target_L = target_R = max 0 (min 1.2 baseVol)`, where
`baseVol = max |sample| * gain / 18000`; so the targets equal `baseVol` exactly when
`0 ≤ baseVol ≤ 1.2`, and are capped at `1.2` above it. -/
theorem C7_targets_without_stereo (data : List α) (gain rndL rndR noise : α) (s : State α)
    (w : WebApp.State α) :
    ((processVuData data gain false rndL rndR s).targetVolL =
        max 0 (min 1.2 (peakAbs data * gain / 18000)) ∧
      (processVuData data gain false rndL rndR s).targetVolR =
        max 0 (min 1.2 (peakAbs data * gain / 18000))) ∧
    ((WebApp.processData data gain false noise rndL rndR w).targetVolL =
        max 0 (min 1.2 (peakAbs data * gain / 18000)) ∧
      (WebApp.processData data gain false noise rndL rndR w).targetVolR =
        max 0 (min 1.2 (peakAbs data * gain / 18000))) ∧
    (0 ≤ peakAbs data * gain / 18000 ∧ peakAbs data * gain / 18000 ≤ 1.2 →
      max 0 (min 1.2 (peakAbs data * gain / 18000)) = peakAbs data * gain / 18000) := by
  have h18 : ((BASE_SENSITIVITY_VU : ℕ) : α) = 18000 := by norm_num [BASE_SENSITIVITY_VU]
  refine ⟨⟨?_, ?_⟩, ⟨?_, ?_⟩, ?_⟩
  · simp only [processVuData, maxVal_eq_peakAbs, h18]
    exact cap_eq _
  · simp only [processVuData, maxVal_eq_peakAbs, h18]
    exact cap_eq _
  · simp only [WebApp.processData, maxVal_eq_peakAbs]
    exact cap_eq _
  · simp only [WebApp.processData, maxVal_eq_peakAbs]
    exact cap_eq _
  · rintro ⟨h0, h1⟩
    rw [min_eq_right h1, max_eq_right h0]

end Targets

/-! ## C8: the decay profile table -/

section DecayTable

variable {α : Type} [LinearOrderedField α]

/-- C8: the decay profile table. `updateSpectrumPhysics` multiplies every band value by
`0.6` and `updateVuPhysics` runs both channels at speed `15.0` when the `decay` setting is
fast; `0.9` and `4.0` when slow; `0.8` and `8.0` when normal. -/
theorem C8_decay_profile_table (dt : α) (s : State α) (k : Fin numBars) :
    ((decayRate DecaySetting.fast = (0.6 : α) ∧ speed DecaySetting.fast = (15.0 : α)) ∧
      (decayRate DecaySetting.slow = (0.9 : α) ∧ speed DecaySetting.slow = (4.0 : α)) ∧
      (decayRate DecaySetting.normal = (0.8 : α) ∧ speed DecaySetting.normal = (8.0 : α))) ∧
    (∀ setting : DecaySetting,
      (updateSpectrumPhysics setting dt s).barValues k =
        (if s.barValues k * decayRate setting < 0.01 then 0
          else s.barValues k * decayRate setting)) ∧
    (∀ setting : DecaySetting,
      (updateVuPhysics setting dt s).volL = vuChannel (speed setting) dt s.targetVolL s.volL ∧
      (updateVuPhysics setting dt s).volR =
        vuChannel (speed setting) dt s.targetVolR s.volR) := by
  refine ⟨⟨⟨decayRate_fast, speed_fast⟩, ⟨decayRate_slow, speed_slow⟩,
    ⟨decayRate_normal, speed_normal⟩⟩, ?_, ?_⟩
  · intro setting
    rw [updateSpectrumPhysics_barValues]
    rfl
  · intro setting
    exact ⟨rfl, rfl⟩

end DecayTable

/-! ## C9: the bin of a band -/

section Bins

theorem freqIndex_eq_div (k : ℕ) : freqIndex k = (3 * ((k : ℤ) + 1)) / 2 := by
  unfold freqIndex
  rw [Int.floor_eq_iff]
  have hdiv := Int.emod_add_ediv (3 * ((k : ℤ) + 1)) 2
  have h0 := Int.emod_nonneg (3 * ((k : ℤ) + 1)) (by norm_num : (2 : ℤ) ≠ 0)
  have h1 := Int.emod_lt_of_pos (3 * ((k : ℤ) + 1)) (by norm_num : (0 : ℤ) < 2)
  have hq : ((3 * ((k : ℤ) + 1) : ℤ) : ℚ) =
      (((3 * ((k : ℤ) + 1)) % 2 : ℤ) : ℚ) + 2 * (((3 * ((k : ℤ) + 1)) / 2 : ℤ) : ℚ) := by
    exact_mod_cast hdiv.symm
  have h0q : (0 : ℚ) ≤ (((3 * ((k : ℤ) + 1)) % 2 : ℤ) : ℚ) := by exact_mod_cast h0
  have h1q : (((3 * ((k : ℤ) + 1)) % 2 : ℤ) : ℚ) ≤ 1 := by
    have : (3 * ((k : ℤ) + 1)) % 2 ≤ 1 := by omega
    exact_mod_cast this
  push_cast at hq
  constructor <;> norm_num <;> linarith

/-- C9: for every band index `k` (in particular `k` in `[0, 64)`) the bin is
`freqIndex k = floor ((k + 1) * 1.5) = floor (3 * (k + 1) / 2)`; it is 1 for `k = 0` and 16
for `k = 10`, strictly increasing in `k`, and 96 for `k = 63`. -/
theorem C9_freqIndex_mapping :
    (∀ k : ℕ, freqIndex k = ⌊((k : ℚ) + 1) * 1.5⌋ ∧
      freqIndex k = ⌊(3 * ((k : ℚ) + 1)) / 2⌋ ∧
      freqIndex k = (3 * ((k : ℤ) + 1)) / 2) ∧
    freqIndex 0 = 1 ∧ freqIndex 10 = 16 ∧ StrictMono freqIndex ∧ freqIndex 63 = 96 := by
  refine ⟨fun k => ⟨rfl, ?_, freqIndex_eq_div k⟩, ?_, ?_, ?_, ?_⟩
  · unfold freqIndex
    congr 1
    norm_num
    ring
  · rw [freqIndex_eq_div]; norm_num
  · rw [freqIndex_eq_div]; norm_num
  · apply strictMono_nat_of_lt_succ
    intro k
    rw [freqIndex_eq_div, freqIndex_eq_div]
    push_cast
    omega
  · rw [freqIndex_eq_div]; norm_num

end Bins

/-! ## C10: the update rule of the spectrum processor -/

section Processor

variable {α : Type} [LinearOrderedField α]

theorem dftLoop_upTo (M : MathEnv α) (x : List α) (f : ℤ) :
    ∀ m : ℕ, (List.range m).foldl (dftStep M x f) (0, 0) =
      (Finset.sum (Finset.range m) (fun n =>
          hannWindow M x.length n * x.getD n 0 *
            M.cos (2 * M.PI * (f : α) * (n : α) / (x.length : α))),
        Finset.sum (Finset.range m) (fun n =>
          hannWindow M x.length n * x.getD n 0 *
            M.sin (2 * M.PI * (f : α) * (n : α) / (x.length : α)))) := by
  intro m
  induction m with
  | zero => simp
  | succ m ih =>
    rw [List.range_succ, List.foldl_append, ih, List.foldl_cons, List.foldl_nil,
      Finset.sum_range_succ, Finset.sum_range_succ]
    simp only [dftStep, hannWindow]
    refine Prod.ext ?_ ?_ <;> simp only <;> ring

/-- The inner loop of `processSpectrumData` computes the two sums of the spec. -/
theorem dftLoop_eq_sums (M : MathEnv α) (x : List α) (f : ℤ) :
    dftLoop M x f = (spectrumRe M x f, spectrumIm M x f) :=
  dftLoop_upTo M x f x.length

theorem bandVal_eq_min (M : MathEnv α) (x : List α) (gain : α) (k : ℕ) :
    bandVal M x gain k =
      min 1 (gain * M.sqrt (spectrumRe M x (freqIndex k) ^ 2 +
        spectrumIm M x (freqIndex k) ^ 2) / ((x.length : α) * 2000)) := by
  have h10 : (1.0 : α) = 1 := by norm_num
  have h2000 : ((BASE_SENSITIVITY_SPEC : ℕ) : α) = 2000 := by norm_num [BASE_SENSITIVITY_SPEC]
  unfold bandVal
  simp only [dftLoop_eq_sums, h10, h2000, ← sq]
  have hval : M.sqrt (spectrumRe M x (freqIndex k) ^ 2 + spectrumIm M x (freqIndex k) ^ 2) /
        (x.length : α) * gain / 2000 =
      gain * M.sqrt (spectrumRe M x (freqIndex k) ^ 2 + spectrumIm M x (freqIndex k) ^ 2) /
        ((x.length : α) * 2000) := by
    ring
  rw [hval]
  split_ifs with h
  · exact (min_eq_left (le_of_lt h)).symm
  · exact (min_eq_right (not_lt.mp h)).symm

/-- C10: for every frame `x` of length `N ≥ 2`, every gain `> 0` and every band `k`,
`processSpectrumData` sets `value[k]` to
`max (old value[k]) (min 1 (gain * sqrt (re² + im²) / (N * 2000)))`, where `re` and `im` are
the sums over `n` in `[0, N)` of `w(n) * x(n) * cos (2π * freqIndex k * n / N)` and
`w(n) * x(n) * sin (2π * freqIndex k * n / N)` with the Hann window `w`; hence it never
lowers a band value, and it leaves every peak and every hold timer unchanged. (The bounds
on `N` and the gain delimit the claim; the equations do not depend on them.) -/
theorem C10_processSpectrumData_update (M : MathEnv α) (x : List α) (gain : α)
    (s : State α) (k : Fin numBars) (_hN : 2 ≤ x.length) (_hg : 0 < gain) :
    (processSpectrumData M x gain s).barValues k =
        max (s.barValues k)
          (min 1 (gain * M.sqrt (spectrumRe M x (freqIndex k) ^ 2 +
            spectrumIm M x (freqIndex k) ^ 2) / ((x.length : α) * 2000))) ∧
    s.barValues k ≤ (processSpectrumData M x gain s).barValues k ∧
    (processSpectrumData M x gain s).peakValues = s.peakValues ∧
    (processSpectrumData M x gain s).peakHoldTime = s.peakHoldTime := by
  have hval : (processSpectrumData M x gain s).barValues k =
      max (s.barValues k) (bandVal M x gain k) := by
    rw [processSpectrumData_barValues]
    split_ifs with h
    · exact (max_eq_right (le_of_lt h)).symm
    · exact (max_eq_left (not_lt.mp h)).symm
  refine ⟨?_, ?_, processSpectrumData_peakValues M x gain s,
    processSpectrumData_peakHoldTime M x gain s⟩
  · rw [hval, bandVal_eq_min]
  · rw [hval]
    exact le_max_left _ _

/-- C10 (witness): the frame `[0, 6000, 0]` at gain 1, band 1, from the initial state, with
the true `Math` functions. -/
theorem C10_processSpectrumData_update_witness :
    (State.init : State ℝ).barValues 1 ≤
      (processSpectrumData (⟨Real.cos, Real.sin, Real.sqrt, Real.pi⟩ : MathEnv ℝ)
        [0, 6000, 0] 1 State.init).barValues 1 :=
  (C10_processSpectrumData_update (⟨Real.cos, Real.sin, Real.sqrt, Real.pi⟩ : MathEnv ℝ)
    [0, 6000, 0] 1 State.init 1 (by simp) (by norm_num)).2.1

end Processor

/-! ## C11: one spectrum physics tick, band by band -/

section BandPhysics

variable {α : Type} [LinearOrderedField α]

theorem bandTick_value (setting : DecaySetting) (dt : α) (c : α × α × α) :
    (bandTick setting dt c).1 =
      (if decayRate setting * c.1 ≥ 0.01 then decayRate setting * c.1 else 0) := by
  simp only [bandTick, mul_comm c.1 (decayRate setting)]
  split_ifs with h1 h2 h2
  · exact absurd h2 (not_le.mpr h1)
  · rfl
  · rfl
  · exact absurd (not_lt.mp h1) h2

theorem bandTick_value_nonneg (setting : DecaySetting) (dt : α) (c : α × α × α) :
    0 ≤ (bandTick setting dt c).1 := by
  rw [bandTick_value]
  split_ifs with h
  · exact le_trans (by norm_num) h
  · exact le_refl 0

theorem bandTick_peak (setting : DecaySetting) (dt : α) (c : α × α × α) :
    (bandTick setting dt c).2.1 =
      (if (bandTick setting dt c).1 > c.2.1 then (bandTick setting dt c).1
        else if c.2.2 > 0 then c.2.1 else max 0 (c.2.1 - 0.5 * dt)) := by
  have hv := bandTick_value_nonneg setting dt c
  simp only [bandTick] at hv ⊢
  split_ifs at hv ⊢ <;> first
    | rfl
    | linarith
    | exact (max_eq_left (by linarith)).symm
    | exact (max_eq_right (by linarith)).symm

theorem bandTick_hold (setting : DecaySetting) (dt : α) (c : α × α × α) :
    (bandTick setting dt c).2.2 =
      (if (bandTick setting dt c).1 > c.2.1 then 0.5
        else if c.2.2 > 0 then c.2.2 - dt else c.2.2) := by
  simp only [bandTick]
  split_ifs <;> rfl

/-- C11: one spectrum physics tick, for every state, decay setting with rate `r` and `dt`,
on every band: `value' = r * value` if `r * value ≥ 0.01`, else 0; then if `value' > peak`,
`peak' = value'` and the hold timer becomes `0.5`; else if the hold timer is positive, the
peak stays and the timer loses `dt`; else `peak' = max 0 (peak - 0.5 * dt)` and the timer
stays. The result for a band depends on that band's own three cells only. -/
theorem C11_spectrum_tick_per_band (setting : DecaySetting) (dt : α) (s : State α)
    (k : Fin numBars) :
    (updateSpectrumPhysics setting dt s).barValues k =
        (if decayRate setting * s.barValues k ≥ 0.01 then decayRate setting * s.barValues k
          else 0) ∧
    (updateSpectrumPhysics setting dt s).peakValues k =
        (if (updateSpectrumPhysics setting dt s).barValues k > s.peakValues k then
            (updateSpectrumPhysics setting dt s).barValues k
          else if s.peakHoldTime k > 0 then s.peakValues k
          else max 0 (s.peakValues k - 0.5 * dt)) ∧
    (updateSpectrumPhysics setting dt s).peakHoldTime k =
        (if (updateSpectrumPhysics setting dt s).barValues k > s.peakValues k then 0.5
          else if s.peakHoldTime k > 0 then s.peakHoldTime k - dt
          else s.peakHoldTime k) ∧
    (∀ t : State α, bandCell t k = bandCell s k →
      bandCell (updateSpectrumPhysics setting dt t) k =
        bandCell (updateSpectrumPhysics setting dt s) k) := by
  refine ⟨?_, ?_, ?_, ?_⟩
  · rw [updateSpectrumPhysics_barValues]
    exact bandTick_value setting dt (bandCell s k)
  · rw [updateSpectrumPhysics_peakValues, updateSpectrumPhysics_barValues]
    exact bandTick_peak setting dt (bandCell s k)
  · rw [updateSpectrumPhysics_peakHoldTime, updateSpectrumPhysics_barValues]
    exact bandTick_hold setting dt (bandCell s k)
  · intro t ht
    rw [updateSpectrumPhysics_cell, updateSpectrumPhysics_cell, ht]

end BandPhysics

/-! ## C12: the VU targets with stereo simulation -/

section StereoTargets

variable {α : Type} [LinearOrderedField α]

theorem cap_eq_min_max (x : α) :
    (if (if x > 1.2 then 1.2 else x) < 0 then 0 else (if x > 1.2 then 1.2 else x)) =
      min 1.2 (max 0 x) := by
  have h12 : (0 : α) < 1.2 := by norm_num
  rw [cap_eq]
  rcases le_total x 0 with h0 | h0
  · rw [max_eq_left h0, min_eq_right (le_trans h0 (le_of_lt h12)), max_eq_left h0,
      min_eq_right (le_of_lt h12)]
  · rw [max_eq_right h0, max_eq_right (le_min (le_of_lt h12) h0)]

theorem cap_range (x : α) : 0 ≤ min 1.2 (max 0 x) ∧ min 1.2 (max 0 x) ≤ (1.2 : α) :=
  ⟨le_min (by norm_num) (le_max_left 0 x), min_le_left _ _⟩

/-- Both targets of `processVuData`, for either state of the stereo switch. -/
theorem processVuData_targets (data : List α) (gain : α) (stereoSim : Bool) (rndL rndR : α)
    (s : State α) :
    (processVuData data gain stereoSim rndL rndR s).targetVolL =
        min 1.2 (max 0
          (if stereoSim then
            peakAbs data * gain / 18000 +
              peakAbs data * gain / 18000 * ((rndL - 0.5) * 2.0 * 0.2)
          else peakAbs data * gain / 18000)) ∧
    (processVuData data gain stereoSim rndL rndR s).targetVolR =
        min 1.2 (max 0
          (if stereoSim then
            peakAbs data * gain / 18000 +
              peakAbs data * gain / 18000 * ((rndR - 0.5) * 2.0 * 0.2)
          else peakAbs data * gain / 18000)) := by
  have h18 : ((BASE_SENSITIVITY_VU : ℕ) : α) = 18000 := by norm_num [BASE_SENSITIVITY_VU]
  cases stereoSim <;>
    simp only [processVuData, maxVal_eq_peakAbs, h18, if_true, if_false, Bool.false_eq_true] <;>
    exact ⟨cap_eq_min_max _, cap_eq_min_max _⟩

/-- Both targets of `processData` of `webapp.h`, for either state of the stereo switch. -/
theorem WebApp.processData_targets (data : List α) (gain : α) (stereoSim : Bool)
    (noise rndL rndR : α) (w : WebApp.State α) :
    (WebApp.processData data gain stereoSim noise rndL rndR w).targetVolL =
        min 1.2 (max 0
          (if stereoSim then
            peakAbs data * gain / 18000 +
              peakAbs data * gain / 18000 * ((rndL - 0.5) * 2.0 * noise)
          else peakAbs data * gain / 18000)) ∧
    (WebApp.processData data gain stereoSim noise rndL rndR w).targetVolR =
        min 1.2 (max 0
          (if stereoSim then
            peakAbs data * gain / 18000 +
              peakAbs data * gain / 18000 * ((rndR - 0.5) * 2.0 * noise)
          else peakAbs data * gain / 18000)) := by
  cases stereoSim <;>
    simp only [WebApp.processData, maxVal_eq_peakAbs, if_true, if_false,
      Bool.false_eq_true] <;>
    exact ⟨cap_eq_min_max _, cap_eq_min_max _⟩

theorem jitter_form (b r n : α) : b + b * ((r - 0.5) * 2.0 * n) = b * (1 + (r - 0.5) * 2 * n) := by
  norm_num
  ring

/-- C12: with stereo simulation enabled, for every frame, gain, noise amount `n` and draws
`rndL`, `rndR` of `Math.random()`, the jitters are `j = (rnd - 0.5) * 2 * n` (in `[-n, n]`
for a draw in `[0, 1]`), and each target is `min 1.2 (max 0 (baseVol * (1 + j)))` with
`baseVol = max |sample| * gain / 18000` (0 for the empty frame). `processData` of `webapp.h`
reads `n` from the `noiseAmt` control, `processVuData` of `vu_spectrum.h` has `n = 0.2`.
The targets lie in `[0, 1.2]` and are the same from any two prior states. -/
theorem C12_stereo_targets (data : List α) (gain noise rndL rndR : α) (s t : State α)
    (w v : WebApp.State α) :
    ((WebApp.processData data gain true noise rndL rndR w).targetVolL =
        min 1.2 (max 0 (peakAbs data * gain / 18000 * (1 + (rndL - 0.5) * 2 * noise))) ∧
      (WebApp.processData data gain true noise rndL rndR w).targetVolR =
        min 1.2 (max 0 (peakAbs data * gain / 18000 * (1 + (rndR - 0.5) * 2 * noise)))) ∧
    ((processVuData data gain true rndL rndR s).targetVolL =
        min 1.2 (max 0 (peakAbs data * gain / 18000 * (1 + (rndL - 0.5) * 2 * 0.2))) ∧
      (processVuData data gain true rndL rndR s).targetVolR =
        min 1.2 (max 0 (peakAbs data * gain / 18000 * (1 + (rndR - 0.5) * 2 * 0.2)))) ∧
    (((0 ≤ (processVuData data gain true rndL rndR s).targetVolL ∧
          (processVuData data gain true rndL rndR s).targetVolL ≤ 1.2) ∧
        (0 ≤ (processVuData data gain true rndL rndR s).targetVolR ∧
          (processVuData data gain true rndL rndR s).targetVolR ≤ 1.2)) ∧
      ((0 ≤ (WebApp.processData data gain true noise rndL rndR w).targetVolL ∧
          (WebApp.processData data gain true noise rndL rndR w).targetVolL ≤ 1.2) ∧
        (0 ≤ (WebApp.processData data gain true noise rndL rndR w).targetVolR ∧
          (WebApp.processData data gain true noise rndL rndR w).targetVolR ≤ 1.2))) ∧
    (((processVuData data gain true rndL rndR t).targetVolL =
          (processVuData data gain true rndL rndR s).targetVolL ∧
        (processVuData data gain true rndL rndR t).targetVolR =
          (processVuData data gain true rndL rndR s).targetVolR) ∧
      ((WebApp.processData data gain true noise rndL rndR v).targetVolL =
          (WebApp.processData data gain true noise rndL rndR w).targetVolL ∧
        (WebApp.processData data gain true noise rndL rndR v).targetVolR =
          (WebApp.processData data gain true noise rndL rndR w).targetVolR)) ∧
    ((0 ≤ noise ∧ 0 ≤ rndL ∧ rndL ≤ 1 →
        -noise ≤ (rndL - 0.5) * 2 * noise ∧ (rndL - 0.5) * 2 * noise ≤ noise) ∧
      peakAbs ([] : List α) = 0) := by
  have hw := WebApp.processData_targets data gain true noise rndL rndR w
  have hv := WebApp.processData_targets data gain true noise rndL rndR v
  have hs := processVuData_targets data gain true rndL rndR s
  have ht := processVuData_targets data gain true rndL rndR t
  simp only [if_true, jitter_form] at hw hv hs ht
  refine ⟨hw, hs, ⟨⟨?_, ?_⟩, ⟨?_, ?_⟩⟩, ⟨⟨?_, ?_⟩, ⟨?_, ?_⟩⟩, ⟨?_, rfl⟩⟩
  · rw [hs.1]; exact cap_range _
  · rw [hs.2]; exact cap_range _
  · rw [hw.1]; exact cap_range _
  · rw [hw.2]; exact cap_range _
  · rw [ht.1, hs.1]
  · rw [ht.2, hs.2]
  · rw [hv.1, hw.1]
  · rw [hv.2, hw.2]
  · rintro ⟨hn, h0, h1⟩
    constructor <;> nlinarith

end StereoTargets

/-! ## C13: one VU physics tick, channel by channel -/

section VuTick

variable {α : Type} [LinearOrderedField α]

theorem vuChannel_eq_snap (sp dt target vol : α) :
    vuChannel sp dt target vol =
      (if target > vol then snap (vol + (target - vol) * sp * dt)
        else snap (vol + (target - vol) * 0.6 * sp * dt)) := by
  have h : (target - vol) * (sp * 0.6) * dt = (target - vol) * 0.6 * sp * dt := by ring
  simp only [vuChannel, snap, h]
  split_ifs <;> rfl

/-- C13: one VU physics tick, for every state, decay setting with speed `sp` and `dt`: for
each channel, `current' = snap (current + (target - current) * sp * dt)` when
`target > current`, and `snap (current + (target - current) * 0.6 * sp * dt)` otherwise,
where `snap x = 0` if `x < 0.005` and `x` otherwise. The left result is determined by the
left level and target alone, the right result by the right ones, and the targets are
unchanged. -/
theorem C13_vu_tick_per_channel (setting : DecaySetting) (dt : α) (s : State α) :
    ((updateVuPhysics setting dt s).volL =
        (if s.targetVolL > s.volL then
            snap (s.volL + (s.targetVolL - s.volL) * speed setting * dt)
          else snap (s.volL + (s.targetVolL - s.volL) * 0.6 * speed setting * dt)) ∧
      (updateVuPhysics setting dt s).volR =
        (if s.targetVolR > s.volR then
            snap (s.volR + (s.targetVolR - s.volR) * speed setting * dt)
          else snap (s.volR + (s.targetVolR - s.volR) * 0.6 * speed setting * dt))) ∧
    (∀ x : α, snap x = if x < 0.005 then 0 else x) ∧
    ((∀ t : State α, t.volL = s.volL → t.targetVolL = s.targetVolL →
        (updateVuPhysics setting dt t).volL = (updateVuPhysics setting dt s).volL) ∧
      (∀ t : State α, t.volR = s.volR → t.targetVolR = s.targetVolR →
        (updateVuPhysics setting dt t).volR = (updateVuPhysics setting dt s).volR)) ∧
    ((updateVuPhysics setting dt s).targetVolL = s.targetVolL ∧
      (updateVuPhysics setting dt s).targetVolR = s.targetVolR) := by
  refine ⟨⟨?_, ?_⟩, fun _ => rfl, ⟨?_, ?_⟩, ⟨rfl, rfl⟩⟩
  · rw [updateVuPhysics_volL]; exact vuChannel_eq_snap _ _ _ _
  · rw [updateVuPhysics_volR]; exact vuChannel_eq_snap _ _ _ _
  · intro t h1 h2
    rw [updateVuPhysics_volL, updateVuPhysics_volL, h1, h2]
  · intro t h1 h2
    rw [updateVuPhysics_volR, updateVuPhysics_volR, h1, h2]

end VuTick

/-! ## C14: the levels and targets are never negative -/

section Nonneg

variable {α : Type} [LinearOrderedField α]

theorem processSpectrumData_vu (M : MathEnv α) (waveform : List α) (gain : α) (s : State α) :
    ((processSpectrumData M waveform gain s).volL = s.volL ∧
      (processSpectrumData M waveform gain s).volR = s.volR) ∧
    ((processSpectrumData M waveform gain s).targetVolL = s.targetVolL ∧
      (processSpectrumData M waveform gain s).targetVolR = s.targetVolR) := by
  refine ⟨⟨?_, ?_⟩, ⟨?_, ?_⟩⟩ <;> rw [processSpectrumData_frame]

theorem updateSpectrumPhysics_vu (setting : DecaySetting) (dt : α) (s : State α) :
    ((updateSpectrumPhysics setting dt s).volL = s.volL ∧
      (updateSpectrumPhysics setting dt s).volR = s.volR) ∧
    ((updateSpectrumPhysics setting dt s).targetVolL = s.targetVolL ∧
      (updateSpectrumPhysics setting dt s).targetVolR = s.targetVolR) := by
  refine ⟨⟨?_, ?_⟩, ⟨?_, ?_⟩⟩ <;> rw [updateSpectrumPhysics_frame]

theorem vuChannel_nonneg (sp dt target vol : α) : 0 ≤ vuChannel sp dt target vol := by
  have h5 : (0 : α) ≤ 0.005 := by norm_num
  unfold vuChannel
  simp only
  split_ifs with h1 h2 h2
  · exact le_refl 0
  · exact le_trans h5 (not_lt.mp h2)
  · exact le_refl 0
  · exact le_trans h5 (not_lt.mp h2)

theorem VuNonneg.of_eq_nonneg {s t : State α} (h : VuNonneg s)
    (e : (t.volL = s.volL ∧ t.volR = s.volR) ∧
      (t.targetVolL = s.targetVolL ∧ t.targetVolR = s.targetVolR)) : VuNonneg t := by
  obtain ⟨⟨e1, e2⟩, ⟨e3, e4⟩⟩ := e
  unfold VuNonneg
  rw [e1, e2, e3, e4]
  exact h

theorem VuNonneg.processVuData_nonneg {s : State α} (h : VuNonneg s) (data : List α) (gain : α)
    (stereoSim : Bool) (rndL rndR : α) :
    VuNonneg (processVuData data gain stereoSim rndL rndR s) := by
  have ht := processVuData_targets data gain stereoSim rndL rndR s
  refine ⟨h.1, ?_, ?_⟩
  · rw [ht.1]; exact (cap_range _).1
  · rw [ht.2]; exact (cap_range _).1

theorem VuNonneg.updateVuPhysics_nonneg {s : State α} (h : VuNonneg s) (setting : DecaySetting)
    (dt : α) : VuNonneg (updateVuPhysics setting dt s) := by
  refine ⟨⟨?_, ?_⟩, h.2⟩
  · rw [updateVuPhysics_volL]; exact vuChannel_nonneg _ _ _ _
  · rw [updateVuPhysics_volR]; exact vuChannel_nonneg _ _ _ _

theorem VuNonneg.loop_nonneg {s : State α} (h : VuNonneg s) (setting : DecaySetting)
    (timestamp : α) : VuNonneg (loop setting timestamp s) := by
  rcases loop_eq setting timestamp s with e | ⟨s2, _, hv, e | e⟩
  · rw [e]; exact h
  · rw [e]
    have h2 : VuNonneg s2 := h.of_eq_nonneg ⟨⟨hv.1, hv.2.1⟩, ⟨hv.2.2.1, hv.2.2.2⟩⟩
    exact h2.of_eq_nonneg (updateSpectrumPhysics_vu setting _ s2)
  · rw [e]
    have h2 : VuNonneg s2 := h.of_eq_nonneg ⟨⟨hv.1, hv.2.1⟩, ⟨hv.2.2.1, hv.2.2.2⟩⟩
    exact h2.updateVuPhysics_nonneg setting _

theorem VuNonneg.connect_nonneg {s : State α} (h : VuNonneg s) (setting : DecaySetting) :
    VuNonneg (connect setting s) := by
  have h1 : VuNonneg
      ({ s with isConnected := true, statusLight := StatusLight.connected } : State α) := h
  exact h1.loop_nonneg setting 0

theorem VuNonneg.apply_nonneg {s : State α} (h : VuNonneg s) (M : MathEnv α) (o : Op α) :
    VuNonneg (o.apply M s) := by
  cases o with
  | processSpectrumData waveform gain =>
    exact h.of_eq_nonneg (processSpectrumData_vu M waveform gain s)
  | processVuData data gain stereoSim rndL rndR =>
    exact h.processVuData_nonneg data gain stereoSim rndL rndR
  | updateSpectrumPhysics setting dt => exact h.of_eq_nonneg (updateSpectrumPhysics_vu setting dt s)
  | updateVuPhysics setting dt => exact h.updateVuPhysics_nonneg setting dt
  | switchMode mode => exact ⟨⟨le_refl _, le_refl _⟩, h.2⟩
  | disconnect => exact ⟨⟨le_refl _, le_refl _⟩, h.2⟩
  | connect setting => exact h.connect_nonneg setting
  | loop setting timestamp => exact h.loop_nonneg setting timestamp

theorem VuNonneg.run_nonneg (M : MathEnv α) (ops : List (Op α)) :
    ∀ s : State α, VuNonneg s → VuNonneg (run M ops s) := by
  induction ops with
  | nil => intro s h; exact h
  | cons o ops ih => intro s h; exact ih _ (h.apply_nonneg M o)

/-- C14: in every state reached from the initial state by any sequence of calls of the
engine (frames of either kind, VU physics ticks with any `dt`, negative or very large ones
included, mode switches, disconnects, and the other functions as well), both channels'
current level and target are non-negative. -/
theorem C14_levels_and_targets_nonneg (M : MathEnv α) (ops : List (Op α)) :
    (0 ≤ (run M ops State.init).volL ∧ 0 ≤ (run M ops State.init).volR) ∧
    (0 ≤ (run M ops State.init).targetVolL ∧ 0 ≤ (run M ops State.init).targetVolR) :=
  VuNonneg.run_nonneg M ops State.init ⟨⟨le_refl _, le_refl _⟩, ⟨le_refl _, le_refl _⟩⟩

end Nonneg

/-! ## C15: the range of the levels -/

section LevelRange

variable {α : Type} [LinearOrderedField α]

end LevelRange

/-! ## C16: the range of the peaks -/

section PeakRange

variable {α : Type} [LinearOrderedField α]

theorem bandTick_peak_range (setting : DecaySetting) (dt : α) (c : α × α × α)
    (hdt : 0 ≤ dt) (hv0 : 0 ≤ c.1) (hv1 : c.1 ≤ 1) (hp0 : 0 ≤ c.2.1) (hp1 : c.2.1 ≤ 1) :
    0 ≤ (bandTick setting dt c).2.1 ∧ (bandTick setting dt c).2.1 ≤ 1 := by
  have hv := bandTick_value_range setting dt c hv0 hv1
  have hg : (0 : α) ≤ 0.5 * dt := by positivity
  rw [bandTick_peak]
  split_ifs
  · exact hv
  · exact ⟨hp0, hp1⟩
  · exact ⟨le_max_left _ _, max_le zero_le_one (by linarith)⟩

theorem PeaksInUnit.processSpectrumData_peaks {s : State α} (h : PeaksInUnit s) (M : MathEnv α)
    (waveform : List α) (gain : α) : PeaksInUnit (processSpectrumData M waveform gain s) := by
  refine ⟨h.1.processSpectrumData M waveform gain, fun k => ?_⟩
  rw [processSpectrumData_peakValues]
  exact h.2 k

theorem PeaksInUnit.updateSpectrumPhysics_peaks {s : State α} (h : PeaksInUnit s)
    (setting : DecaySetting) (dt : α) (hdt : 0 ≤ dt) :
    PeaksInUnit (updateSpectrumPhysics setting dt s) := by
  refine ⟨h.1.updateSpectrumPhysics setting dt, fun k => ?_⟩
  rw [updateSpectrumPhysics_peakValues]
  exact bandTick_peak_range setting dt (bandCell s k) hdt (h.1 k).1 (h.1 k).2 (h.2 k).1
    (h.2 k).2

theorem PeaksInUnit.apply_peaks {s : State α} (h : PeaksInUnit s) (M : MathEnv α) (o : Op α)
    (ho : o.IsFrameOrTick) : PeaksInUnit (o.apply M s) := by
  cases o with
  | processSpectrumData waveform gain => exact h.processSpectrumData_peaks M waveform gain
  | processVuData data gain stereoSim rndL rndR => exact ⟨fun k => h.1 k, fun k => h.2 k⟩
  | updateSpectrumPhysics setting dt => exact h.updateSpectrumPhysics_peaks setting dt ho
  | updateVuPhysics setting dt => exact ⟨fun k => h.1 k, fun k => h.2 k⟩
  | switchMode mode => exact absurd ho id
  | disconnect => exact absurd ho id
  | connect setting => exact absurd ho id
  | loop setting timestamp => exact absurd ho id

theorem PeaksInUnit.run_peaks (M : MathEnv α) (ops : List (Op α)) :
    ∀ s : State α, (∀ o ∈ ops, Op.IsFrameOrTick o) → PeaksInUnit s →
      PeaksInUnit (run M ops s) := by
  induction ops with
  | nil => intro s _ h; exact h
  | cons o ops ih =>
    intro s hops h
    exact ih _ (fun q hq => hops q (List.mem_cons_of_mem o hq))
      (h.apply_peaks M o (hops o (List.mem_cons_self o ops)))

/-- C16: in every state reached from the initial all-zero state by frames and physics ticks
with `dt ≥ 0`, every band's peak stays within `[0, 1]`. -/
theorem C16_peaks_in_unit_interval (M : MathEnv α) (ops : List (Op α))
    (hops : ∀ o ∈ ops, Op.IsFrameOrTick o) (k : Fin numBars) :
    0 ≤ (run M ops State.init).peakValues k ∧ (run M ops State.init).peakValues k ≤ 1 :=
  (PeaksInUnit.run_peaks M ops State.init hops
    ⟨fun _ => ⟨le_refl _, zero_le_one⟩, fun _ => ⟨le_refl _, zero_le_one⟩⟩).2 k

/-- C16 (witness): with the true `Math` functions, the frame `[0, 6000, 0]` at gain 1 and
one physics tick of one second at the normal setting; band 1. -/
theorem C16_peaks_in_unit_interval_witness :
    (run (⟨Real.cos, Real.sin, Real.sqrt, Real.pi⟩ : MathEnv ℝ)
      [Op.processSpectrumData [0, 6000, 0] 1,
       Op.updateSpectrumPhysics DecaySetting.normal 1] State.init).peakValues 1 ≤ 1 :=
  (C16_peaks_in_unit_interval (⟨Real.cos, Real.sin, Real.sqrt, Real.pi⟩ : MathEnv ℝ)
    [Op.processSpectrumData [0, 6000, 0] 1, Op.updateSpectrumPhysics DecaySetting.normal 1]
    (by
      intro o ho
      simp only [List.mem_cons, List.mem_singleton, List.not_mem_nil, or_false] at ho
      rcases ho with rfl | rfl
      · exact trivial
      · exact zero_le_one)
    1).2

end PeakRange

/-! ## The render tick -/

section RenderTick

variable {α : Type} [LinearOrderedField α]

theorem loop_of_disconnected (setting : DecaySetting) (timestamp : α) (s : State α)
    (hc : s.isConnected = false) : loop setting timestamp s = s := by
  unfold MicTalk.loop
  rw [if_pos hc]

/-- A render tick of a connected engine: the timing variables are updated and the physics
of the active mode runs with `dt = loopDt timestamp s`. -/
theorem loop_of_connected (setting : DecaySetting) (timestamp : α) (s : State α)
    (hc : s.isConnected = true) :
    ∃ s2 : State α,
      (∀ k, bandCell s2 k = bandCell s k) ∧
      ((s2.volL = s.volL ∧ s2.volR = s.volR) ∧
        (s2.targetVolL = s.targetVolL ∧ s2.targetVolR = s.targetVolR)) ∧
      (s2.currentMode = s.currentMode ∧ s2.isConnected = true ∧ s2.lastTime = timestamp ∧
        s2.statusLight = s.statusLight) ∧
      loop setting timestamp s =
        (if s.currentMode = Mode.spectrum then
          updateSpectrumPhysics setting (loopDt timestamp s) s2
        else updateVuPhysics setting (loopDt timestamp s) s2) := by
  have hc2 : ¬ s.isConnected = false := by rw [hc]; exact Bool.noConfusion
  unfold MicTalk.loop loopDt
  rw [if_neg hc2]
  simp only
  split
  · refine ⟨_, ?_, ?_, ?_, rfl⟩
    · exact fun _ => rfl
    · exact ⟨⟨rfl, rfl⟩, ⟨rfl, rfl⟩⟩
    · exact ⟨rfl, hc, rfl, rfl⟩
  · refine ⟨_, ?_, ?_, ?_, rfl⟩
    · exact fun _ => rfl
    · exact ⟨⟨rfl, rfl⟩, ⟨rfl, rfl⟩⟩
    · exact ⟨rfl, hc, rfl, rfl⟩

theorem updateSpectrumPhysics_control (setting : DecaySetting) (dt : α) (s : State α) :
    (updateSpectrumPhysics setting dt s).currentMode = s.currentMode ∧
    (updateSpectrumPhysics setting dt s).isConnected = s.isConnected ∧
    (updateSpectrumPhysics setting dt s).lastTime = s.lastTime ∧
    (updateSpectrumPhysics setting dt s).statusLight = s.statusLight := by
  refine ⟨?_, ?_, ?_, ?_⟩ <;> rw [updateSpectrumPhysics_frame]

/-- A render tick of a connected engine in the spectrum mode. -/
theorem loop_spectrum (setting : DecaySetting) (timestamp : α) (s : State α)
    (hc : s.isConnected = true) (hm : s.currentMode = Mode.spectrum) :
    (∀ k, bandCell (loop setting timestamp s) k =
      bandTick setting (loopDt timestamp s) (bandCell s k)) ∧
    (((loop setting timestamp s).volL = s.volL ∧ (loop setting timestamp s).volR = s.volR) ∧
      ((loop setting timestamp s).targetVolL = s.targetVolL ∧
        (loop setting timestamp s).targetVolR = s.targetVolR)) ∧
    ((loop setting timestamp s).currentMode = Mode.spectrum ∧
      (loop setting timestamp s).isConnected = true ∧
      (loop setting timestamp s).lastTime = timestamp) := by
  obtain ⟨s2, hb, hv, ⟨h1, h2, h3, _⟩, e⟩ := loop_of_connected setting timestamp s hc
  rw [if_pos hm] at e
  have hvu := updateSpectrumPhysics_vu setting (loopDt timestamp s) s2
  have hct := updateSpectrumPhysics_control setting (loopDt timestamp s) s2
  rw [e]
  refine ⟨fun k => ?_, ⟨⟨?_, ?_⟩, ⟨?_, ?_⟩⟩, ⟨?_, ?_, ?_⟩⟩
  · rw [updateSpectrumPhysics_cell, hb]
  · rw [hvu.1.1, hv.1.1]
  · rw [hvu.1.2, hv.1.2]
  · rw [hvu.2.1, hv.2.1]
  · rw [hvu.2.2, hv.2.2]
  · rw [hct.1, h1, hm]
  · rw [hct.2.1, h2]
  · rw [hct.2.2.1, h3]

/-- A render tick of a connected engine in the VU mode. -/
theorem loop_vu (setting : DecaySetting) (timestamp : α) (s : State α)
    (hc : s.isConnected = true) (hm : s.currentMode = Mode.vu) :
    (∀ k, bandCell (loop setting timestamp s) k = bandCell s k) ∧
    (((loop setting timestamp s).volL =
          vuChannel (speed setting) (loopDt timestamp s) s.targetVolL s.volL ∧
        (loop setting timestamp s).volR =
          vuChannel (speed setting) (loopDt timestamp s) s.targetVolR s.volR) ∧
      ((loop setting timestamp s).targetVolL = s.targetVolL ∧
        (loop setting timestamp s).targetVolR = s.targetVolR)) ∧
    ((loop setting timestamp s).currentMode = Mode.vu ∧
      (loop setting timestamp s).isConnected = true ∧
      (loop setting timestamp s).lastTime = timestamp) := by
  obtain ⟨s2, hb, hv, ⟨h1, h2, h3, _⟩, e⟩ := loop_of_connected setting timestamp s hc
  have hm2 : ¬ s.currentMode = Mode.spectrum := by rw [hm]; exact Mode.noConfusion
  rw [if_neg hm2] at e
  rw [e]
  refine ⟨fun k => ?_, ⟨⟨?_, ?_⟩, ⟨?_, ?_⟩⟩, ⟨?_, ?_, ?_⟩⟩
  · exact hb k
  · rw [updateVuPhysics_volL, hv.1.1, hv.2.1]
  · rw [updateVuPhysics_volR, hv.1.2, hv.2.2]
  · exact hv.2.1
  · exact hv.2.2
  · exact h1.trans hm
  · exact h2
  · exact h3

theorem bandTick_zero (setting : DecaySetting) (dt : α) :
    bandTick setting dt (0, 0, 0) = (0, (if 0 - 0.5 * dt < 0 then 0 else 0 - 0.5 * dt), 0) := by
  have h3 : (0 : α) < 0.01 := by norm_num
  simp only [bandTick, zero_mul, h3, if_true, gt_iff_lt, lt_irrefl, if_false]

/-- The tick that `connect` issues: `loop(0)` on the connected state, so its
`dt` is `loopDt 0 s = (0 - lastTime) / 1000`. -/
theorem connect_tick (setting : DecaySetting) (s : State α) :
    ∃ s2 : State α,
      (∀ k, bandCell s2 k = bandCell s k) ∧
      ((s2.volL = s.volL ∧ s2.volR = s.volR) ∧
        (s2.targetVolL = s.targetVolL ∧ s2.targetVolR = s.targetVolR)) ∧
      connect setting s =
        (if s.currentMode = Mode.spectrum then
          updateSpectrumPhysics setting (loopDt 0 s) s2
        else updateVuPhysics setting (loopDt 0 s) s2) := by
  obtain ⟨s2, hb, hv, _, e⟩ := loop_of_connected setting 0
    ({ s with isConnected := true, statusLight := StatusLight.connected } : State α) rfl
  exact ⟨s2, hb, hv, e⟩

/-- The tick that `connect` issues, in the spectrum mode. -/
theorem connect_spectrum (setting : DecaySetting) (s : State α)
    (hm : s.currentMode = Mode.spectrum) :
    (∀ k, bandCell (connect setting s) k = bandTick setting (loopDt 0 s) (bandCell s k)) ∧
    (((connect setting s).volL = s.volL ∧ (connect setting s).volR = s.volR) ∧
      ((connect setting s).targetVolL = s.targetVolL ∧
        (connect setting s).targetVolR = s.targetVolR)) ∧
    ((connect setting s).currentMode = Mode.spectrum ∧
      (connect setting s).isConnected = true ∧
      (connect setting s).lastTime = 0) :=
  loop_spectrum setting 0
    ({ s with isConnected := true, statusLight := StatusLight.connected } : State α) rfl hm

/-- The tick that `connect` issues, in the VU mode. -/
theorem connect_vu (setting : DecaySetting) (s : State α) (hm : s.currentMode = Mode.vu) :
    (∀ k, bandCell (connect setting s) k = bandCell s k) ∧
    (((connect setting s).volL = vuChannel (speed setting) (loopDt 0 s) s.targetVolL s.volL ∧
        (connect setting s).volR =
          vuChannel (speed setting) (loopDt 0 s) s.targetVolR s.volR) ∧
      ((connect setting s).targetVolL = s.targetVolL ∧
        (connect setting s).targetVolR = s.targetVolR)) ∧
    ((connect setting s).currentMode = Mode.vu ∧
      (connect setting s).isConnected = true ∧
      (connect setting s).lastTime = 0) :=
  loop_vu setting 0
    ({ s with isConnected := true, statusLight := StatusLight.connected } : State α) rfl hm

end RenderTick

/-! ## C17: the `dt` of a render tick -/

section TickLength

/-- C17 (the code at the failing input): in the spectrum mode, after a session
`connect(); loop(5000); disconnect()` the variable `lastTime` is still 5000, so the tick
`loop(0)` issued by the next `connect()` has `dt = (0 - 5000) / 1000 = -5`; gravity then
raises every peak from 0 to `0 - 0.5 * (-5) = 2.5`. The first conjunct says that the tick
issued by any `connect` runs the physics with `dt = loopDt 0 s`. -/
theorem C17_reconnect_tick_has_negative_dt :
    (∀ (setting : DecaySetting) (s : State ℚ), ∃ s2 : State ℚ,
      (∀ k, bandCell s2 k = bandCell s k) ∧
      connect setting s =
        (if s.currentMode = Mode.spectrum then
          updateSpectrumPhysics setting (loopDt 0 s) s2
        else updateVuPhysics setting (loopDt 0 s) s2)) ∧
    (disconnect (loop DecaySetting.normal 5000 (connect DecaySetting.normal
      (switchMode Mode.spectrum (State.init : State ℚ))))).lastTime = 5000 ∧
    loopDt 0 (disconnect (loop DecaySetting.normal 5000 (connect DecaySetting.normal
      (switchMode Mode.spectrum (State.init : State ℚ))))) = -5 ∧
    (∀ k, (connect DecaySetting.normal
      (disconnect (loop DecaySetting.normal 5000 (connect DecaySetting.normal
        (switchMode Mode.spectrum (State.init : State ℚ)))))).peakValues k = 2.5) := by
  have hzero : ∀ dt : ℚ, bandTick DecaySetting.normal dt (0, 0, 0) =
      (0, (if 0 - 0.5 * dt < 0 then 0 else 0 - 0.5 * dt), 0) :=
    fun dt => bandTick_zero DecaySetting.normal dt
  -- the state after `switchMode`
  have m1 : (switchMode Mode.spectrum (State.init : State ℚ)).currentMode = Mode.spectrum :=
    rfl
  have c1 : ∀ k, bandCell (switchMode Mode.spectrum (State.init : State ℚ)) k = (0, 0, 0) :=
    fun _ => rfl
  have d1 : loopDt 0 (switchMode Mode.spectrum (State.init : State ℚ)) = 0 := by
    norm_num [loopDt, switchMode, State.init]
  -- the first `connect`
  obtain ⟨c2, _, m2, i2, t2⟩ := connect_spectrum DecaySetting.normal
    (switchMode Mode.spectrum (State.init : State ℚ)) m1
  generalize connect DecaySetting.normal (switchMode Mode.spectrum (State.init : State ℚ))
    = s2 at c2 m2 i2 t2 ⊢
  have c2z : ∀ k, bandCell s2 k = (0, 0, 0) := by
    intro k
    rw [c2 k, c1 k, d1, hzero]
    norm_num
  have d2 : loopDt 5000 s2 = 5 := by
    rw [loopDt, t2]; norm_num
  -- the animation frame at 5000 ms
  obtain ⟨c3, _, m3, _, t3⟩ := loop_spectrum DecaySetting.normal 5000 s2 i2 m2
  generalize loop DecaySetting.normal 5000 s2 = s3 at c3 m3 t3 ⊢
  have c3z : ∀ k, bandCell s3 k = (0, 0, 0) := by
    intro k
    rw [c3 k, c2z k, d2, hzero]
    norm_num
  -- `disconnect`
  have m4 : (disconnect s3).currentMode = Mode.spectrum := m3
  have t4 : (disconnect s3).lastTime = 5000 := t3
  have c4z : ∀ k, bandCell (disconnect s3) k = (0, 0, 0) := by
    intro k
    have h := c3z k
    simp only [bandCell, Prod.mk.injEq] at h ⊢
    exact ⟨rfl, h.2.1, h.2.2⟩
  have d4 : loopDt 0 (disconnect s3) = -5 := by
    rw [loopDt, t4]; norm_num
  -- the second `connect`
  obtain ⟨c5, _, _, _, _⟩ := connect_spectrum DecaySetting.normal (disconnect s3) m4
  refine ⟨fun setting s => ?_, t4, d4, fun k => ?_⟩
  · obtain ⟨s2, hb, _, e⟩ := connect_tick setting s
    exact ⟨s2, hb, e⟩
  · have h := c5 k
    rw [c4z k, d4, hzero] at h
    have hp := congrArg (fun c : ℚ × ℚ × ℚ => c.2.1) h
    simp only [bandCell] at hp
    rw [hp]
    norm_num

end TickLength

/-! ## C18: routing by the mode -/

section Routing

variable {α : Type} [LinearOrderedField α]

/-- C18: a frame delivered by the polling callback in the spectrum mode is handled by
`processSpectrumData` and changes no level and no target; a frame delivered in the VU mode
is handled by `processVuData` and changes no band value, peak or hold timer. A render tick in
the spectrum mode changes no level and no target and (when connected) applies the band
physics to every band; a render tick in the VU mode changes no band value, peak or hold
timer and (when connected) applies the VU physics to both channels. -/
theorem C18_mode_routing (M : MathEnv α) (data : List α) (gain : α) (stereoSim : Bool)
    (rndL rndR : α) (setting : DecaySetting) (timestamp : α) (s : State α) :
    (s.currentMode = Mode.spectrum →
      onFetchData M data gain stereoSim rndL rndR s = processSpectrumData M data gain s ∧
      ((onFetchData M data gain stereoSim rndL rndR s).volL = s.volL ∧
        (onFetchData M data gain stereoSim rndL rndR s).volR = s.volR) ∧
      ((onFetchData M data gain stereoSim rndL rndR s).targetVolL = s.targetVolL ∧
        (onFetchData M data gain stereoSim rndL rndR s).targetVolR = s.targetVolR)) ∧
    (s.currentMode = Mode.vu →
      onFetchData M data gain stereoSim rndL rndR s =
        processVuData data gain stereoSim rndL rndR s ∧
      (∀ k, bandCell (onFetchData M data gain stereoSim rndL rndR s) k = bandCell s k)) ∧
    (s.currentMode = Mode.spectrum →
      (((loop setting timestamp s).volL = s.volL ∧ (loop setting timestamp s).volR = s.volR) ∧
        ((loop setting timestamp s).targetVolL = s.targetVolL ∧
          (loop setting timestamp s).targetVolR = s.targetVolR)) ∧
      (s.isConnected = true → ∀ k, bandCell (loop setting timestamp s) k =
        bandTick setting (loopDt timestamp s) (bandCell s k))) ∧
    (s.currentMode = Mode.vu →
      (∀ k, bandCell (loop setting timestamp s) k = bandCell s k) ∧
      (s.isConnected = true →
        (loop setting timestamp s).volL =
          vuChannel (speed setting) (loopDt timestamp s) s.targetVolL s.volL ∧
        (loop setting timestamp s).volR =
          vuChannel (speed setting) (loopDt timestamp s) s.targetVolR s.volR)) := by
  refine ⟨fun hm => ?_, fun hm => ?_, fun hm => ?_, fun hm => ?_⟩
  · have e : onFetchData M data gain stereoSim rndL rndR s =
        processSpectrumData M data gain s := by
      unfold onFetchData
      rw [if_pos hm]
    rw [e]
    exact ⟨rfl, processSpectrumData_vu M data gain s⟩
  · have hm2 : ¬ s.currentMode = Mode.spectrum := by rw [hm]; exact Mode.noConfusion
    have e : onFetchData M data gain stereoSim rndL rndR s =
        processVuData data gain stereoSim rndL rndR s := by
      unfold onFetchData
      rw [if_neg hm2]
    rw [e]
    exact ⟨rfl, fun _ => rfl⟩
  · cases hc : s.isConnected with
    | false =>
      rw [loop_of_disconnected setting timestamp s hc]
      exact ⟨⟨⟨rfl, rfl⟩, ⟨rfl, rfl⟩⟩, fun h => absurd h Bool.noConfusion⟩
    | true =>
      have h := loop_spectrum setting timestamp s hc hm
      exact ⟨h.2.1, fun _ => h.1⟩
  · cases hc : s.isConnected with
    | false =>
      rw [loop_of_disconnected setting timestamp s hc]
      exact ⟨fun _ => rfl, fun h => absurd h Bool.noConfusion⟩
    | true =>
      have h := loop_vu setting timestamp s hc hm
      exact ⟨h.1, fun _ => h.2.1.1⟩

end Routing

/-! ## C19: a failed fetch -/

section FetchError

variable {α : Type}

/-- C19: in both engines the failure callback of the polling timer sets the status light
to `error` and leaves every band value, peak and hold timer, both levels, both targets, the
mode and the connected flag as they were, for every prior state. -/
theorem C19_fetch_error_only_sets_status (s : State α) (w : WebApp.State α) :
    ((onFetchError s).statusLight = StatusLight.error ∧
      (∀ k, bandCell (onFetchError s) k = bandCell s k) ∧
      ((onFetchError s).volL = s.volL ∧ (onFetchError s).volR = s.volR) ∧
      ((onFetchError s).targetVolL = s.targetVolL ∧
        (onFetchError s).targetVolR = s.targetVolR) ∧
      (onFetchError s).currentMode = s.currentMode ∧
      (onFetchError s).isConnected = s.isConnected) ∧
    ((WebApp.onFetchError w).statusLight = StatusLight.error ∧
      ((WebApp.onFetchError w).volL = w.volL ∧ (WebApp.onFetchError w).volR = w.volR) ∧
      ((WebApp.onFetchError w).targetVolL = w.targetVolL ∧
        (WebApp.onFetchError w).targetVolR = w.targetVolR) ∧
      (WebApp.onFetchError w).isConnected = w.isConnected) :=
  ⟨⟨rfl, fun _ => rfl, ⟨rfl, rfl⟩, ⟨rfl, rfl⟩, rfl, rfl⟩, ⟨rfl, ⟨rfl, rfl⟩, ⟨rfl, rfl⟩, rfl⟩⟩

end FetchError

/-! ## C20: what `connect` leaves in place -/

section Connect

variable {α : Type} [LinearOrderedField α]

theorem connect_keeps_targets (setting : DecaySetting) (s : State α) :
    (connect setting s).isConnected = true ∧
    (connect setting s).targetVolL = s.targetVolL ∧
    (connect setting s).targetVolR = s.targetVolR := by
  cases hm : s.currentMode with
  | spectrum =>
    have h := connect_spectrum setting s hm
    exact ⟨h.2.2.2.1, h.2.1.2.1, h.2.1.2.2⟩
  | vu =>
    have h := connect_vu setting s hm
    exact ⟨h.2.2.2.1, h.2.1.2.1, h.2.1.2.2⟩

theorem WebApp.connect_keeps_targets_webapp (w : WebApp.State α) :
    (WebApp.connect w).isConnected = true ∧
    (WebApp.connect w).targetVolL = w.targetVolL ∧
    (WebApp.connect w).targetVolR = w.targetVolR := by
  unfold WebApp.connect WebApp.loop
  simp only [Bool.true_eq_false, if_false]
  split <;> exact ⟨rfl, rfl, rfl⟩

theorem vuChannel_rest (sp : α) : vuChannel sp 0 0 0 = 0 := by
  have h5 : (0 : α) < 0.005 := by norm_num
  simp [vuChannel, h5]

/-- C20 (counterexample): after `connect`, the VU frame `[9000]` at gain 1 and `disconnect`,
the left target is `1/2`; a second `connect` leaves it at `1/2`, not at 0. -/
theorem C20_connect_keeps_target :
    (connect DecaySetting.normal
      (disconnect (processVuData [9000] 1 false 0 0
        (connect DecaySetting.normal (State.init : State ℚ))))).targetVolL = 1 / 2 := by
  rw [(connect_keeps_targets DecaySetting.normal _).2.1]
  norm_num [disconnect, processVuData, maxVal, BASE_SENSITIVITY_VU]

theorem loop_statusLight (setting : DecaySetting) (timestamp : α) (s : State α) :
    (loop setting timestamp s).statusLight = s.statusLight := by
  cases hc : s.isConnected with
  | false => rw [loop_of_disconnected setting timestamp s hc]
  | true =>
    obtain ⟨s2, _, _, ⟨_, _, _, hl⟩, e⟩ := loop_of_connected setting timestamp s hc
    rw [e]
    split
    · rw [(updateSpectrumPhysics_control setting _ s2).2.2.2, hl]
    · exact hl

theorem connect_statusLight (setting : DecaySetting) (s : State α) :
    (connect setting s).statusLight = StatusLight.connected :=
  loop_statusLight setting 0
    ({ s with isConnected := true, statusLight := StatusLight.connected } : State α)

/-- A render tick of the connected engine of `webapp.h`: both channels run the channel
code of `updateVuPhysics` at speed 8 with `dt = (timestamp - lastTime) / 1000`. -/
theorem WebApp.loop_levels (timestamp : α) (w : WebApp.State α)
    (hc : w.isConnected = true) :
    ((WebApp.loop timestamp w).volL =
        vuChannel 8.0 ((timestamp - w.lastTime) / 1000) w.targetVolL w.volL ∧
      (WebApp.loop timestamp w).volR =
        vuChannel 8.0 ((timestamp - w.lastTime) / 1000) w.targetVolR w.volR) ∧
    ((WebApp.loop timestamp w).targetVolL = w.targetVolL ∧
      (WebApp.loop timestamp w).targetVolR = w.targetVolR) := by
  have hc2 : ¬ w.isConnected = false := by rw [hc]; exact Bool.noConfusion
  unfold WebApp.loop
  rw [if_neg hc2]
  simp only
  split <;> exact ⟨⟨rfl, rfl⟩, ⟨rfl, rfl⟩⟩

/-- What `connect` of `webapp.h` leaves: the flag and the light set, `lastTime = 0`, the
targets as they were, and each level moved by one tick of the channel code with
`dt = (0 - lastTime) / 1000`. -/
theorem WebApp.connect_tick_webapp (w : WebApp.State α) :
    ((WebApp.connect w).isConnected = true ∧
      (WebApp.connect w).statusLight = StatusLight.connected ∧
      (WebApp.connect w).lastTime = 0) ∧
    ((WebApp.connect w).targetVolL = w.targetVolL ∧
      (WebApp.connect w).targetVolR = w.targetVolR) ∧
    ((WebApp.connect w).volL =
        vuChannel 8.0 ((0 - w.lastTime) / 1000) w.targetVolL w.volL ∧
      (WebApp.connect w).volR =
        vuChannel 8.0 ((0 - w.lastTime) / 1000) w.targetVolR w.volR) := by
  have hl := WebApp.loop_levels 0
    ({ w with isConnected := true, statusLight := StatusLight.connected } : WebApp.State α)
    rfl
  refine ⟨?_, (WebApp.connect_keeps_targets_webapp w).2, hl.1⟩
  unfold WebApp.connect WebApp.loop
  simp only [Bool.true_eq_false, if_false]
  split <;> exact ⟨rfl, rfl, rfl⟩

/-- C20 (amended): `connect` resets nothing. For every state it sets the connected flag and
the status light, sets `lastTime` to 0, keeps the mode and both channels' targets, and runs
one render tick `loop(0)` of the active mode on the existing state, with
`dt = loopDt 0 s = (0 - lastTime) / 1000`: in the spectrum mode every band's cells are those
of one band physics tick on the old cells and the levels are as they were; in the VU mode
every band's value, peak and hold timer are as they were and each level is one tick of the
channel code on the old level. `connect` of `webapp.h` does the same with its VU physics. If
all simulation state is already zero and `lastTime = 0` (as at the first `connect` after the
page is loaded), all simulation state is still zero after `connect`. -/
theorem C20_connect_resets_nothing (setting : DecaySetting) (s : State α)
    (w : WebApp.State α) :
    (((connect setting s).isConnected = true ∧
        (connect setting s).statusLight = StatusLight.connected) ∧
      ((connect setting s).currentMode = s.currentMode ∧ (connect setting s).lastTime = 0) ∧
      ((connect setting s).targetVolL = s.targetVolL ∧
        (connect setting s).targetVolR = s.targetVolR)) ∧
    (s.currentMode = Mode.spectrum →
      (∀ k, bandCell (connect setting s) k =
        bandTick setting (loopDt 0 s) (bandCell s k)) ∧
      ((connect setting s).volL = s.volL ∧ (connect setting s).volR = s.volR)) ∧
    (s.currentMode = Mode.vu →
      (∀ k, bandCell (connect setting s) k = bandCell s k) ∧
      ((connect setting s).volL =
          vuChannel (speed setting) (loopDt 0 s) s.targetVolL s.volL ∧
        (connect setting s).volR =
          vuChannel (speed setting) (loopDt 0 s) s.targetVolR s.volR)) ∧
    (((WebApp.connect w).isConnected = true ∧
        (WebApp.connect w).statusLight = StatusLight.connected ∧
        (WebApp.connect w).lastTime = 0) ∧
      ((WebApp.connect w).targetVolL = w.targetVolL ∧
        (WebApp.connect w).targetVolR = w.targetVolR) ∧
      ((WebApp.connect w).volL =
          vuChannel 8.0 ((0 - w.lastTime) / 1000) w.targetVolL w.volL ∧
        (WebApp.connect w).volR =
          vuChannel 8.0 ((0 - w.lastTime) / 1000) w.targetVolR w.volR)) ∧
    (AllZero s ∧ s.lastTime = 0 → AllZero (connect setting s)) := by
  have hkt := connect_keeps_targets setting s
  have hctl : (connect setting s).currentMode = s.currentMode ∧
      (connect setting s).lastTime = 0 := by
    cases hm : s.currentMode with
    | spectrum =>
      have h := connect_spectrum setting s hm
      exact ⟨h.2.2.1, h.2.2.2.2⟩
    | vu =>
      have h := connect_vu setting s hm
      exact ⟨h.2.2.1, h.2.2.2.2⟩
  refine ⟨⟨⟨hkt.1, connect_statusLight setting s⟩, hctl, hkt.2⟩, fun hm => ?_, fun hm => ?_,
    WebApp.connect_tick_webapp w, ?_⟩
  · have h := connect_spectrum setting s hm
    exact ⟨h.1, h.2.1.1⟩
  · have h := connect_vu setting s hm
    exact ⟨h.1, h.2.1.1⟩
  rintro ⟨⟨hb, ⟨hL, hR⟩, ⟨htL, htR⟩⟩, ht⟩
  have hd : loopDt 0 s = 0 := by rw [loopDt, ht]; norm_num
  cases hm : s.currentMode with
  | spectrum =>
    obtain ⟨hc, ⟨⟨h1, h2⟩, ⟨h3, h4⟩⟩, _⟩ := connect_spectrum setting s hm
    refine ⟨fun k => ?_, ⟨h1.trans hL, h2.trans hR⟩, ⟨h3.trans htL, h4.trans htR⟩⟩
    rw [hc k, hb k, hd, bandTick_zero]
    norm_num
  | vu =>
    obtain ⟨hc, ⟨⟨h1, h2⟩, ⟨h3, h4⟩⟩, _⟩ := connect_vu setting s hm
    refine ⟨fun k => (hc k).trans (hb k), ⟨?_, ?_⟩, ⟨h3.trans htL, h4.trans htR⟩⟩
    · rw [h1, hd, htL, hL, vuChannel_rest]
    · rw [h2, hd, htR, hR, vuChannel_rest]

end Connect

/-! ## C21: the needle of the analog meter -/

section Needle

variable {α : Type} [LinearOrderedField α]

theorem needle_of_clamped (x : α) (h0 : 0 ≤ x) (h1 : x ≤ 1.2) :
    0 ≤ (if x > 1 then 1 + (x - 1) * 0.5 else x) ∧
      (if x > 1 then 1 + (x - 1) * 0.5 else x) ≤ 1.1 := by
  split_ifs with h
  · constructor <;> linarith
  · constructor
    · exact h0
    · have := not_lt.mp h
      linarith

theorem needle_mono (x y : α) (hxy : x ≤ y) :
    (if x > 1 then 1 + (x - 1) * 0.5 else x) ≤ (if y > 1 then 1 + (y - 1) * 0.5 else y) := by
  split_ifs with hx hy hy
  · linarith
  · exact absurd (lt_of_lt_of_le hx hxy) hy
  · have := not_lt.mp hx
    linarith
  · exact hxy

/-- C21: for every `val`, with `s = min (max val 0) 1.2`, `needlePct = s` when `s ≤ 1` and
`1 + (s - 1) * 0.5` when `s > 1`; `needlePct` is non-decreasing in `val`, always lies in
`[0, 1.1]`, and `drawFancyAnalog` of `webapp.h` computes the same `needlePct` as the one of
`vu_spectrum.h`. -/
theorem C21_needle_mapping :
    (∀ val : α, needlePct val =
      (if min (max val 0) 1.2 ≤ 1 then min (max val 0) 1.2
        else 1 + (min (max val 0) 1.2 - 1) * 0.5)) ∧
    Monotone (needlePct : α → α) ∧
    (∀ val : α, 0 ≤ needlePct val ∧ needlePct val ≤ 1.1) ∧
    (∀ val : α, WebApp.needlePct val = needlePct val) := by
  have h12 : (0 : α) ≤ 1.2 := by norm_num
  refine ⟨fun val => ?_, fun a b hab => ?_, fun val => ?_, fun _ => rfl⟩
  · unfold needlePct
    simp only
    split_ifs with h1 h2 h2
    · exact absurd h2 (not_le.mpr h1)
    · rfl
    · rfl
    · exact absurd (not_lt.mp h1) h2
  · unfold needlePct
    exact needle_mono _ _ (min_le_min (max_le_max hab (le_refl 0)) (le_refl _))
  · unfold needlePct
    exact needle_of_clamped _ (le_min (le_max_right _ _) h12) (min_le_right _ _)

end Needle

/-! ## C22: the LED ladder -/

section Ladder

variable {α : Type} [LinearOrderedField α]

theorem ledColor_of_lit (val : α) (i : ℕ) (h : val > (i : α) / 40) :
    ledColor val i =
      (if (i : α) / 40 > 0.85 then LedColor.red
        else if (i : α) / 40 > 0.6 then LedColor.amber else LedColor.green) := by
  have h40 : ((segs : ℕ) : α) = 40 := by norm_num [segs]
  unfold ledColor
  simp only [h40]
  rw [if_pos h]

theorem ledColor_of_unlit (val : α) (i : ℕ) (h : ¬ val > (i : α) / 40) :
    ledColor val i = LedColor.off := by
  have h40 : ((segs : ℕ) : α) = 40 := by norm_num [segs]
  unfold ledColor
  simp only [h40]
  rw [if_neg h]

theorem ledColor_lit_iff (val : α) (i : ℕ) :
    ledColor val i ≠ LedColor.off ↔ val > (i : α) / 40 := by
  by_cases h : val > (i : α) / 40
  · rw [ledColor_of_lit val i h]
    constructor
    · exact fun _ => h
    · intro _
      split_ifs <;> exact LedColor.noConfusion
  · rw [ledColor_of_unlit val i h]
    constructor
    · exact fun hne => absurd rfl hne
    · exact fun hv => absurd hv h

/-- C22 (counterexample): at level 1 segment 24 is lit and its position is `24/40 = 0.6`,
inside `0.6 ≤ i/40 ≤ 0.85`, yet it is green, not amber. -/
theorem C22_segment_24_is_green :
    ledColor (1 : ℚ) 24 = LedColor.green ∧ (1 : ℚ) > 24 / 40 ∧
    (0.6 : ℚ) ≤ 24 / 40 ∧ (24 : ℚ) / 40 ≤ 0.85 := by
  refine ⟨?_, by norm_num, by norm_num, by norm_num⟩
  rw [ledColor_of_lit (1 : ℚ) 24 (by norm_num)]
  norm_num

/-- C22 (amended): for every `val` and every segment `i` (in particular `i` in `[0, 40)`),
segment `i` is lit iff `val > i/40`, and a lit segment is green when `i/40 ≤ 0.6`, amber
when `0.6 < i/40 ≤ 0.85`, and red when `i/40 > 0.85`; both engines colour alike. -/
theorem C22_led_ladder (val : α) (i : ℕ) :
    (ledColor val i ≠ LedColor.off ↔ val > (i : α) / 40) ∧
    (val > (i : α) / 40 →
      (ledColor val i = LedColor.green ↔ (i : α) / 40 ≤ 0.6) ∧
      (ledColor val i = LedColor.amber ↔ 0.6 < (i : α) / 40 ∧ (i : α) / 40 ≤ 0.85) ∧
      (ledColor val i = LedColor.red ↔ 0.85 < (i : α) / 40)) ∧
    WebApp.ledColor val i = ledColor val i := by
  refine ⟨ledColor_lit_iff val i, fun h => ?_, rfl⟩
  rw [ledColor_of_lit val i h]
  by_cases h85 : (i : α) / 40 > 0.85
  · have h6 : (i : α) / 40 > 0.6 := lt_trans (by norm_num) h85
    rw [if_pos h85]
    refine ⟨⟨fun e => LedColor.noConfusion e, fun hle => absurd h6 (not_lt.mpr hle)⟩,
      ⟨fun e => LedColor.noConfusion e, fun hh => absurd h85 (not_lt.mpr hh.2)⟩,
      ⟨fun _ => h85, fun _ => rfl⟩⟩
  · rw [if_neg h85]
    by_cases h6 : (i : α) / 40 > 0.6
    · rw [if_pos h6]
      refine ⟨⟨fun e => LedColor.noConfusion e, fun hle => absurd h6 (not_lt.mpr hle)⟩,
        ⟨fun _ => ⟨h6, not_lt.mp h85⟩, fun _ => rfl⟩,
        ⟨fun e => LedColor.noConfusion e, fun hh => absurd hh h85⟩⟩
    · rw [if_neg h6]
      refine ⟨⟨fun _ => not_lt.mp h6, fun _ => rfl⟩,
        ⟨fun e => LedColor.noConfusion e, fun hh => absurd hh.1 h6⟩,
        ⟨fun e => LedColor.noConfusion e, fun hh => absurd hh h85⟩⟩

end Ladder

/-! ## C23: the two engines agree on the VU logic -/

section Engines

variable {α : Type} [LinearOrderedField α]

/-- C23: for every frame, gain, stereo flag and pair of random draws, `processData` of
`webapp.h` with noise amount `0.20` produces the same targets as `processVuData` of
`vu_spectrum.h`; and from equal levels and targets, a render tick of the connected
`webapp.h` engine produces the same `volL` and `volR` as `updateVuPhysics` at the normal
setting with the same `dt` (for a tick at `timestamp`, `dt = (timestamp - lastTime) / 1000`;
every `dt` arises, from the timestamp `lastTime + 1000 * dt`). -/
theorem C23_engines_agree (data : List α) (gain : α) (stereoSim : Bool) (rndL rndR : α)
    (timestamp dt : α) (s : State α) (w : WebApp.State α)
    (hc : w.isConnected = true)
    (hv : w.volL = s.volL ∧ w.volR = s.volR)
    (ht : w.targetVolL = s.targetVolL ∧ w.targetVolR = s.targetVolR) :
    ((WebApp.processData data gain stereoSim 0.20 rndL rndR w).targetVolL =
        (processVuData data gain stereoSim rndL rndR s).targetVolL ∧
      (WebApp.processData data gain stereoSim 0.20 rndL rndR w).targetVolR =
        (processVuData data gain stereoSim rndL rndR s).targetVolR) ∧
    ((WebApp.loop timestamp w).volL =
        (updateVuPhysics DecaySetting.normal ((timestamp - w.lastTime) / 1000) s).volL ∧
      (WebApp.loop timestamp w).volR =
        (updateVuPhysics DecaySetting.normal ((timestamp - w.lastTime) / 1000) s).volR) ∧
    ((WebApp.loop (w.lastTime + 1000 * dt) w).volL =
        (updateVuPhysics DecaySetting.normal dt s).volL ∧
      (WebApp.loop (w.lastTime + 1000 * dt) w).volR =
        (updateVuPhysics DecaySetting.normal dt s).volR) := by
  have h20 : (0.20 : α) = 0.2 := by norm_num
  have hw := WebApp.processData_targets data gain stereoSim 0.20 rndL rndR w
  have hs := processVuData_targets data gain stereoSim rndL rndR s
  have hdt : (w.lastTime + 1000 * dt - w.lastTime) / 1000 = dt := by
    field_simp
  have hl := WebApp.loop_levels timestamp w hc
  have hl2 := WebApp.loop_levels (w.lastTime + 1000 * dt) w hc
  rw [hdt] at hl2
  refine ⟨⟨?_, ?_⟩, ⟨?_, ?_⟩, ⟨?_, ?_⟩⟩
  · rw [hw.1, hs.1, h20]
  · rw [hw.2, hs.2, h20]
  · rw [hl.1.1, updateVuPhysics_volL, speed_normal, hv.1, ht.1]
  · rw [hl.1.2, updateVuPhysics_volR, speed_normal, hv.2, ht.2]
  · rw [hl2.1.1, updateVuPhysics_volL, speed_normal, hv.1, ht.1]
  · rw [hl2.1.2, updateVuPhysics_volR, speed_normal, hv.2, ht.2]

/-- C23 (witness): both engines with left level `0`, targets `1`, the `webapp.h` engine
connected with `lastTime = 0`; a frame `[9000]` at gain 1 with stereo simulation, and a tick
at timestamp 100. -/
theorem C23_engines_agree_witness :
    (WebApp.loop 100
      { (WebApp.State.init : WebApp.State ℚ) with
        isConnected := true, targetVolL := 1, targetVolR := 1 }).volL =
      (updateVuPhysics DecaySetting.normal ((100 - 0) / 1000)
        { (State.init : State ℚ) with targetVolL := 1, targetVolR := 1 }).volL :=
  (C23_engines_agree [9000] 1 true (1 / 4) (3 / 4) 100 (1 / 10)
    { (State.init : State ℚ) with targetVolL := 1, targetVolR := 1 }
    { (WebApp.State.init : WebApp.State ℚ) with
      isConnected := true, targetVolL := 1, targetVolR := 1 }
    rfl ⟨rfl, rfl⟩ ⟨rfl, rfl⟩).2.1.1

end Engines

/-! ## C24: the decay ends -/

section DecayEnds

variable {α : Type} [LinearOrderedField α]

theorem bandTick_iterate_value (setting : DecaySetting) (dt : α) (c : α × α × α) (n : ℕ) :
    ((bandTick setting dt)^[n] c).1 = (valueTick setting)^[n] c.1 := by
  induction n with
  | zero => rfl
  | succ n ih =>
    rw [Function.iterate_succ_apply', Function.iterate_succ_apply', bandTick_value, ih]
    rfl

theorem barValues_iterate (setting : DecaySetting) (dt : α) (s : State α) (k : Fin numBars)
    (n : ℕ) :
    ((updateSpectrumPhysics setting dt)^[n] s).barValues k =
      (valueTick setting)^[n] (s.barValues k) := by
  have h := congrArg Prod.fst (bandCell_iterate setting dt s k n)
  rw [bandTick_iterate_value] at h
  exact h

theorem valueTick_zero_or_ge (setting : DecaySetting) (v : α) :
    valueTick setting v = 0 ∨ 0.01 ≤ valueTick setting v := by
  unfold valueTick
  split_ifs with h
  · exact Or.inr h
  · exact Or.inl rfl

theorem valueTick_iterate_le (setting : DecaySetting) (v : α) (hv : v ≤ 1) :
    ∀ n : ℕ, (valueTick setting)^[n] v ≤ decayRate setting ^ n := by
  have hr : (0 : α) < decayRate setting := decayRate_pos setting
  intro n
  induction n with
  | zero => simpa using hv
  | succ n ih =>
    rw [Function.iterate_succ_apply', pow_succ']
    unfold valueTick
    split_ifs
    · exact mul_le_mul_of_nonneg_left ih (le_of_lt hr)
    · exact le_of_lt (mul_pos hr (pow_pos hr n))

/-- Once the power of the rate is below the threshold, the value is exactly 0. -/
theorem valueTick_iterate_eq_zero (setting : DecaySetting) (v : α) (hv : v ≤ 1) (n : ℕ)
    (hn : (decayRate setting : α) ^ (n + 1) < 0.01) : (valueTick setting)^[n + 1] v = 0 := by
  have hle := valueTick_iterate_le setting v hv (n + 1)
  rw [Function.iterate_succ_apply'] at hle ⊢
  rcases valueTick_zero_or_ge setting ((valueTick setting)^[n] v) with h | h
  · exact h
  · exact absurd (lt_of_le_of_lt (le_trans h hle) hn) (lt_irrefl _)

/-- From 1 the value follows the powers of the rate while they stay at or above the
threshold. -/
theorem valueTick_iterate_one (setting : DecaySetting) :
    ∀ n : ℕ, (0.01 : α) ≤ decayRate setting ^ n →
      (valueTick setting)^[n] (1 : α) = decayRate setting ^ n := by
  have hr : (0 : α) < decayRate setting := decayRate_pos setting
  have hr1 : decayRate setting < (1 : α) := decayRate_lt_one setting
  intro n
  induction n with
  | zero => intro _; simp
  | succ n ih =>
    intro hn
    have hstep : (decayRate setting : α) ^ (n + 1) ≤ decayRate setting ^ n := by
      rw [pow_succ']
      exact mul_le_of_le_one_left (le_of_lt (pow_pos hr n)) (le_of_lt hr1)
    have hn' : (decayRate setting : α) * decayRate setting ^ n ≥ 0.01 := by
      rw [← pow_succ']; exact hn
    rw [Function.iterate_succ_apply', ih (le_trans hn hstep), pow_succ']
    unfold valueTick
    rw [if_pos hn']

/-- C24: for every band whose value is at most 1 (in particular in `[0, 1]`) and that
receives no further frames, the value is exactly 0 after 44 physics ticks at the slow
setting, after 21 at normal and after 10 at fast, whatever `dt` is; for value 1 these counts
are tight: the value is still non-zero after 43, 20 and 9 ticks. -/
theorem C24_decay_terminates (dt : α) (s : State α) (k : Fin numBars)
    (h1 : s.barValues k ≤ 1) :
    (((updateSpectrumPhysics DecaySetting.slow dt)^[44] s).barValues k = 0 ∧
      ((updateSpectrumPhysics DecaySetting.normal dt)^[21] s).barValues k = 0 ∧
      ((updateSpectrumPhysics DecaySetting.fast dt)^[10] s).barValues k = 0) ∧
    (s.barValues k = 1 →
      ((updateSpectrumPhysics DecaySetting.slow dt)^[43] s).barValues k ≠ 0 ∧
      ((updateSpectrumPhysics DecaySetting.normal dt)^[20] s).barValues k ≠ 0 ∧
      ((updateSpectrumPhysics DecaySetting.fast dt)^[9] s).barValues k ≠ 0) := by
  refine ⟨⟨?_, ?_, ?_⟩, fun hv => ⟨?_, ?_, ?_⟩⟩
  · rw [barValues_iterate]
    exact valueTick_iterate_eq_zero DecaySetting.slow _ h1 43
      (by rw [decayRate_slow]; norm_num)
  · rw [barValues_iterate]
    exact valueTick_iterate_eq_zero DecaySetting.normal _ h1 20
      (by rw [decayRate_normal]; norm_num)
  · rw [barValues_iterate]
    exact valueTick_iterate_eq_zero DecaySetting.fast _ h1 9
      (by rw [decayRate_fast]; norm_num)
  · rw [barValues_iterate, hv,
      valueTick_iterate_one DecaySetting.slow 43 (by rw [decayRate_slow]; norm_num)]
    exact pow_ne_zero 43 (ne_of_gt (decayRate_pos DecaySetting.slow))
  · rw [barValues_iterate, hv,
      valueTick_iterate_one DecaySetting.normal 20 (by rw [decayRate_normal]; norm_num)]
    exact pow_ne_zero 20 (ne_of_gt (decayRate_pos DecaySetting.normal))
  · rw [barValues_iterate, hv,
      valueTick_iterate_one DecaySetting.fast 9 (by rw [decayRate_fast]; norm_num)]
    exact pow_ne_zero 9 (ne_of_gt (decayRate_pos DecaySetting.fast))

/-- C24 (witness): every band at value 1, ticks of `1/60` s; band 0 at the slow setting. -/
theorem C24_decay_terminates_witness :
    ((updateSpectrumPhysics DecaySetting.slow (1 / 60 : ℚ))^[44]
      { (State.init : State ℚ) with barValues := fun _ => 1 }).barValues 0 = 0 ∧
    ((updateSpectrumPhysics DecaySetting.slow (1 / 60 : ℚ))^[43]
      { (State.init : State ℚ) with barValues := fun _ => 1 }).barValues 0 ≠ 0 :=
  ⟨(C24_decay_terminates (1 / 60 : ℚ)
      { (State.init : State ℚ) with barValues := fun _ => 1 } 0 (le_refl _)).1.1,
    ((C24_decay_terminates (1 / 60 : ℚ)
      { (State.init : State ℚ) with barValues := fun _ => 1 } 0 (le_refl _)).2 rfl).1⟩

end DecayEnds

/-! ## C25: the peak is captured after the decay -/

section CapturedPeak

variable {α : Type} [LinearOrderedField α]

theorem bandTick_value_le_rate (setting : DecaySetting) (dt : α) (c : α × α × α)
    (h1 : c.1 ≤ 1) : (bandTick setting dt c).1 ≤ decayRate setting := by
  have hr : (0 : α) < decayRate setting := decayRate_pos setting
  rw [bandTick_value]
  split_ifs
  · calc decayRate setting * c.1 ≤ decayRate setting * 1 :=
          mul_le_mul_of_nonneg_left h1 (le_of_lt hr)
      _ = decayRate setting := mul_one _
  · exact le_of_lt hr

/-- C25 (counterexample): a band at peak 0 raised to `X = 0.01 > 0 / 0.8`; after one tick at
the normal setting the value has snapped to 0 and the peak is 0, not `X * 0.8 = 0.008`. -/
theorem C25_small_value_is_not_captured :
    (0.01 : ℚ) > 0 / 0.8 ∧
    bandCell (updateSpectrumPhysics DecaySetting.normal (0 : ℚ)
      { (State.init : State ℚ) with barValues := fun _ => 0.01 }) 0 = (0, 0, 0) ∧
    (0 : ℚ) ≠ 0.01 * 0.8 := by
  refine ⟨by norm_num, ?_, by norm_num⟩
  rw [updateSpectrumPhysics_cell]
  show bandTick DecaySetting.normal (0 : ℚ) (0.01, 0, 0) = (0, 0, 0)
  norm_num [bandTick, decayRate_normal]

/-- C25 (amended): after any spectrum physics tick applied to a state whose band values are
at most 1 (in particular in `[0, 1]`), every band value is at most the decay rate; a peak
captured in that tick (decayed value above the old peak) equals the already-decayed value;
and a band raised to `X` with `X * decayRate > peak` and `X * decayRate ≥ 0.01` ends with
value and peak both `X * decayRate`, not `X`. -/
theorem C25_peak_captured_after_decay (setting : DecaySetting) (dt : α) (s : State α)
    (k : Fin numBars) (h1 : s.barValues k ≤ 1) :
    (updateSpectrumPhysics setting dt s).barValues k ≤ decayRate setting ∧
    ((updateSpectrumPhysics setting dt s).barValues k > s.peakValues k →
      (updateSpectrumPhysics setting dt s).peakValues k =
        (updateSpectrumPhysics setting dt s).barValues k) ∧
    (s.barValues k * decayRate setting > s.peakValues k ∧
        s.barValues k * decayRate setting ≥ 0.01 →
      (updateSpectrumPhysics setting dt s).barValues k = s.barValues k * decayRate setting ∧
      (updateSpectrumPhysics setting dt s).peakValues k =
        s.barValues k * decayRate setting) := by
  have hv : (updateSpectrumPhysics setting dt s).barValues k =
      (if decayRate setting * s.barValues k ≥ 0.01 then decayRate setting * s.barValues k
        else 0) := by
    rw [updateSpectrumPhysics_barValues]
    exact bandTick_value setting dt (bandCell s k)
  have hp : (updateSpectrumPhysics setting dt s).peakValues k =
      (if (updateSpectrumPhysics setting dt s).barValues k > s.peakValues k then
          (updateSpectrumPhysics setting dt s).barValues k
        else if s.peakHoldTime k > 0 then s.peakValues k
        else max 0 (s.peakValues k - 0.5 * dt)) := by
    rw [updateSpectrumPhysics_peakValues, updateSpectrumPhysics_barValues]
    exact bandTick_peak setting dt (bandCell s k)
  refine ⟨?_, fun hc => ?_, fun hx => ?_⟩
  · rw [updateSpectrumPhysics_barValues]
    exact bandTick_value_le_rate setting dt (bandCell s k) h1
  · rw [hp, if_pos hc]
  · obtain ⟨hgt, hge⟩ := hx
    rw [mul_comm] at hgt hge
    have hv2 : (updateSpectrumPhysics setting dt s).barValues k =
        decayRate setting * s.barValues k := by
      rw [hv, if_pos hge]
    have hc : (updateSpectrumPhysics setting dt s).barValues k > s.peakValues k := by
      rw [hv2]; exact hgt
    rw [hp, if_pos hc, hv2, mul_comm]
    exact ⟨rfl, rfl⟩

/-- C25 (witness): every band at value 1 and peak 0, a tick of `1/60` s at the fast
setting; the value of band 3 ends at or below the fast rate. -/
theorem C25_peak_captured_after_decay_witness :
    (updateSpectrumPhysics DecaySetting.fast (1 / 60 : ℚ)
      { (State.init : State ℚ) with barValues := fun _ => 1 }).barValues 3 ≤
      decayRate DecaySetting.fast :=
  (C25_peak_captured_after_decay DecaySetting.fast (1 / 60 : ℚ)
    { (State.init : State ℚ) with barValues := fun _ => 1 } 3 (le_refl _)).1

end CapturedPeak

/-! ## C26: the dead zone of the VU physics -/

section DeadZone

variable {α : Type} [LinearOrderedField α]

theorem vuChannel_dead (sp dt T : α) (hT : 0 ≤ T) (h : T * sp * dt < 0.005) :
    vuChannel sp dt T 0 = 0 := by
  have h5 : (0 : α) < 0.005 := by norm_num
  unfold vuChannel
  by_cases hT0 : T > 0
  · have h1 : (0 : α) + (T - 0) * sp * dt < 0.005 := by
      rw [zero_add, sub_zero]; exact h
    simp only [if_pos hT0, if_pos h1]
  · have hT1 : T = 0 := le_antisymm (not_lt.mp hT0) hT
    have h1 : (0 : α) + (T - 0) * (sp * 0.6) * dt < 0.005 := by
      rw [hT1]; simpa using h5
    simp only [if_neg hT0, if_pos h1]

theorem vuTicks_dead_left (T : α) (hT : 0 ≤ T) (ticks : List (DecaySetting × α))
    (hticks : ∀ p ∈ ticks, 0 ≤ p.2 ∧ T * speed p.1 * p.2 < 0.005) :
    ∀ s : State α, s.volL = 0 → s.targetVolL = T → (vuTicks ticks s).volL = 0 := by
  induction ticks with
  | nil => intro s h _; exact h
  | cons p ticks ih =>
    intro s hL hTs
    refine ih (fun q hq => hticks q (List.mem_cons_of_mem p hq)) _ ?_ hTs
    rw [updateVuPhysics_volL, hL, hTs]
    exact vuChannel_dead _ _ _ hT (hticks p (List.mem_cons_self p ticks)).2

theorem vuTicks_dead_right (T : α) (hT : 0 ≤ T) (ticks : List (DecaySetting × α))
    (hticks : ∀ p ∈ ticks, 0 ≤ p.2 ∧ T * speed p.1 * p.2 < 0.005) :
    ∀ s : State α, s.volR = 0 → s.targetVolR = T → (vuTicks ticks s).volR = 0 := by
  induction ticks with
  | nil => intro s h _; exact h
  | cons p ticks ih =>
    intro s hR hTs
    refine ih (fun q hq => hticks q (List.mem_cons_of_mem p hq)) _ ?_ hTs
    rw [updateVuPhysics_volR, hR, hTs]
    exact vuChannel_dead _ _ _ hT (hticks p (List.mem_cons_self p ticks)).2

/-- C26: a channel at level 0 with target `T ≥ 0`, under VU physics ticks with `dt ≥ 0` and
`T * speed * dt < 0.005`: one such tick leaves the level at exactly 0, and over any number
of such ticks the level is 0 after every one of them, although the target may be positive.
Stated for the left channel, with the same for the right channel and for a render tick of
the `webapp.h` engine (speed 8). -/
theorem C26_vu_dead_zone (s : State α) (ticks : List (DecaySetting × α))
    (hL : s.volL = 0) (hT : 0 ≤ s.targetVolL)
    (hticks : ∀ p ∈ ticks, 0 ≤ p.2 ∧ s.targetVolL * speed p.1 * p.2 < 0.005) :
    (∀ n : ℕ, (vuTicks (ticks.take n) s).volL = 0) ∧
    (∀ (setting : DecaySetting) (dt : α),
      0 ≤ dt ∧ s.targetVolL * speed setting * dt < 0.005 →
        (updateVuPhysics setting dt s).volL = 0) ∧
    (s.volR = 0 ∧ 0 ≤ s.targetVolR ∧
        (∀ p ∈ ticks, 0 ≤ p.2 ∧ s.targetVolR * speed p.1 * p.2 < 0.005) →
      ∀ n : ℕ, (vuTicks (ticks.take n) s).volR = 0) ∧
    (∀ (timestamp : α) (w : WebApp.State α),
      w.isConnected = true ∧ w.volL = 0 ∧ 0 ≤ w.targetVolL ∧
        0 ≤ (timestamp - w.lastTime) / 1000 ∧
        w.targetVolL * 8 * ((timestamp - w.lastTime) / 1000) < 0.005 →
      (WebApp.loop timestamp w).volL = 0) := by
  refine ⟨fun n => ?_, fun setting dt h => ?_, fun h n => ?_, fun timestamp w h => ?_⟩
  · exact vuTicks_dead_left s.targetVolL hT (ticks.take n)
      (fun p hp => hticks p (List.mem_of_mem_take hp)) s hL rfl
  · rw [updateVuPhysics_volL, hL]
    exact vuChannel_dead _ _ _ hT h.2
  · exact vuTicks_dead_right s.targetVolR h.2.1 (ticks.take n)
      (fun p hp => h.2.2 p (List.mem_of_mem_take hp)) s h.1 rfl
  · obtain ⟨hc, hw, hwT, _, hlt⟩ := h
    have h8 : (8.0 : α) = 8 := by norm_num
    rw [(WebApp.loop_levels timestamp w hc).1.1, hw, h8]
    exact vuChannel_dead _ _ _ hwT hlt

/-- C26 (witness): left level 0, left target `0.01`, three ticks of `1/60` s at the normal
setting: `0.01 * 8 / 60 < 0.005`. -/
theorem C26_vu_dead_zone_witness :
    (vuTicks
      ([(DecaySetting.normal, (1 / 60 : ℚ)), (DecaySetting.normal, 1 / 60),
        (DecaySetting.normal, 1 / 60)].take 3)
      { (State.init : State ℚ) with targetVolL := 0.01 }).volL = 0 ∧
    (0 : ℚ) < 0.01 :=
  ⟨(C26_vu_dead_zone { (State.init : State ℚ) with targetVolL := 0.01 }
      [(DecaySetting.normal, (1 / 60 : ℚ)), (DecaySetting.normal, 1 / 60),
        (DecaySetting.normal, 1 / 60)]
      rfl (by norm_num [State.init])
      (by
        intro p hp
        simp only [List.mem_cons, List.mem_singleton, List.not_mem_nil, or_false,
          or_self] at hp
        subst hp
        simp only [speed_normal]
        norm_num)).1 3,
    by norm_num⟩

end DeadZone

/-! ## C27: the number of lit segments -/

section LitCount

variable {α : Type} [LinearOrderedField α] [FloorRing α]

theorem lit_iff_lt_count (val : α) (i : ℕ) (hi : i < 40) :
    ledColor val i ≠ LedColor.off ↔ i < (if val ≤ 0 then 0 else min 40 ⌈40 * val⌉₊) := by
  have h40 : (0 : α) < 40 := by norm_num
  rw [ledColor_lit_iff, gt_iff_lt, div_lt_iff₀ h40, mul_comm val 40]
  split_ifs with hv
  · constructor
    · intro h
      have hi0 : (0 : α) ≤ (i : α) := Nat.cast_nonneg i
      have : 40 * val ≤ 0 := mul_nonpos_of_nonneg_of_nonpos (le_of_lt h40) hv
      exact absurd (lt_of_le_of_lt hi0 h) (not_lt.mpr this)
    · exact fun h => absurd h (Nat.not_lt_zero i)
  · rw [lt_min_iff, Nat.lt_ceil]
    exact ⟨fun h => ⟨hi, h⟩, fun h => h.2⟩

/-- C27: for every `val`, the lit segments of the ladder are exactly the first `m`, where
`m = 0` for `val ≤ 0` and `m = min 40 (ceil (40 * val))` for `val > 0`; so their number is
`m`, and every `val > 39/40` lights all 40 segments (levels in `(0.975, 1.2]` look the
same). Both engines colour alike. -/
theorem C27_lit_segments_form_prefix (val : α) :
    (∀ i : ℕ, i < 40 →
      (ledColor val i ≠ LedColor.off ↔
        i < (if val ≤ 0 then 0 else min 40 ⌈40 * val⌉₊))) ∧
    ((Finset.range segs).filter (fun i => ledColor val i ≠ LedColor.off)).card =
      (if val ≤ 0 then 0 else min 40 ⌈40 * val⌉₊) ∧
    (val > 39 / 40 → ∀ i : ℕ, i < 40 → ledColor val i ≠ LedColor.off) ∧
    (∀ i : ℕ, WebApp.ledColor val i = ledColor val i) := by
  have hm40 : (if val ≤ 0 then 0 else min 40 ⌈40 * val⌉₊) ≤ 40 := by
    split_ifs
    · exact Nat.zero_le 40
    · exact min_le_left _ _
  refine ⟨fun i hi => lit_iff_lt_count val i hi, ?_, fun hv i hi => ?_, fun _ => rfl⟩
  · have hset : (Finset.range segs).filter (fun i => ledColor val i ≠ LedColor.off) =
        Finset.range (if val ≤ 0 then 0 else min 40 ⌈40 * val⌉₊) := by
      ext i
      rw [Finset.mem_filter, Finset.mem_range, Finset.mem_range]
      constructor
      · rintro ⟨hi, hl⟩
        exact (lit_iff_lt_count val i hi).mp hl
      · intro hl
        have hi : i < 40 := lt_of_lt_of_le hl hm40
        exact ⟨hi, (lit_iff_lt_count val i hi).mpr hl⟩
    rw [hset, Finset.card_range]
  · rw [ledColor_lit_iff, gt_iff_lt, div_lt_iff₀ (by norm_num : (0 : α) < 40)]
    have hi2 : (i : α) ≤ 39 := by
      have : i ≤ 39 := Nat.le_of_lt_succ hi
      exact_mod_cast this
    have h39 : (39 : α) < val * 40 := by
      have := mul_lt_mul_of_pos_right hv (by norm_num : (0 : α) < 40)
      norm_num at this
      exact this
    exact lt_of_le_of_lt hi2 h39

end LitCount

/-! ## C28: frames that arrive after `disconnect` -/

section LateFrames

variable {α : Type} [LinearOrderedField α]

theorem processSpectrumData_isConnected (M : MathEnv α) (waveform : List α) (gain : α)
    (s : State α) :
    (processSpectrumData M waveform gain s).isConnected = s.isConnected ∧
    (processSpectrumData M waveform gain s).statusLight = StatusLight.connected := by
  constructor <;> rw [processSpectrumData_frame]

/-- The spectrum handler commutes with a change of the connected flag. -/
theorem processSpectrumData_flag (M : MathEnv α) (waveform : List α) (gain : α)
    (s : State α) (b : Bool) :
    processSpectrumData M waveform gain { s with isConnected := b } =
      { processSpectrumData M waveform gain s with isConnected := b } := by
  have hb : (processSpectrumData M waveform gain { s with isConnected := b }).barValues =
      (processSpectrumData M waveform gain s).barValues := by
    funext k
    rw [processSpectrumData_barValues, processSpectrumData_barValues]
  have e1 := processSpectrumData_frame M waveform gain { s with isConnected := b }
  have e2 := processSpectrumData_frame M waveform gain s
  rw [hb] at e1
  generalize (processSpectrumData M waveform gain s).barValues = B at e1 e2
  rw [e1, e2]

/-- C28: the frame handlers do not consult the connected flag. Delivered right after
`disconnect`, the VU frame `[9000]` at gain 1 leaves `isConnected = false`, a left target of
`1/2` and the status light at `connected`; with the true `Math` functions the spectrum frame
`[0, 6000, 0]` at gain 1 leaves `isConnected = false`, band 1 at value 1 and the status light
at `connected`. For every state, the result of `processVuData`, `processSpectrumData` and
`processData` of `webapp.h` is the same whether `isConnected` is true or false, up to that
flag. -/
theorem C28_late_frame_after_disconnect (M : MathEnv α) (data : List α)
    (gain noise rndL rndR : α) (stereoSim b : Bool) (s : State α) (w : WebApp.State α) :
    ((processVuData [9000] 1 false 0 0
        (disconnect (connect DecaySetting.normal (State.init : State ℝ)))).isConnected = false ∧
      (processVuData [9000] 1 false 0 0
        (disconnect (connect DecaySetting.normal (State.init : State ℝ)))).targetVolL = 1 / 2 ∧
      (processVuData [9000] 1 false 0 0
        (disconnect (connect DecaySetting.normal (State.init : State ℝ)))).statusLight =
        StatusLight.connected) ∧
    ((processSpectrumData (⟨Real.cos, Real.sin, Real.sqrt, Real.pi⟩ : MathEnv ℝ) [0, 6000, 0] 1
        (disconnect (connect DecaySetting.normal (State.init : State ℝ)))).isConnected = false ∧
      (processSpectrumData (⟨Real.cos, Real.sin, Real.sqrt, Real.pi⟩ : MathEnv ℝ) [0, 6000, 0] 1
        (disconnect (connect DecaySetting.normal (State.init : State ℝ)))).barValues 1 = 1 ∧
      (processSpectrumData (⟨Real.cos, Real.sin, Real.sqrt, Real.pi⟩ : MathEnv ℝ) [0, 6000, 0] 1
        (disconnect (connect DecaySetting.normal (State.init : State ℝ)))).statusLight =
        StatusLight.connected) ∧
    (processVuData data gain stereoSim rndL rndR { s with isConnected := b } =
        { processVuData data gain stereoSim rndL rndR s with isConnected := b } ∧
      processSpectrumData M data gain { s with isConnected := b } =
        { processSpectrumData M data gain s with isConnected := b } ∧
      WebApp.processData data gain stereoSim noise rndL rndR { w with isConnected := b } =
        { WebApp.processData data gain stereoSim noise rndL rndR w with
          isConnected := b }) := by
  have hv : bandVal (⟨Real.cos, Real.sin, Real.sqrt, Real.pi⟩ : MathEnv ℝ) [0, 6000, 0] 1
      ((1 : Fin numBars) : ℕ) = 1 := bandVal_real_frame
  refine ⟨⟨rfl, ?_, rfl⟩, ⟨?_, ?_, ?_⟩, ⟨rfl, processSpectrumData_flag M data gain s b, rfl⟩⟩
  · norm_num [processVuData, maxVal, BASE_SENSITIVITY_VU]
  · rw [(processSpectrumData_isConnected _ _ _ _).1]
    rfl
  · rw [processSpectrumData_barValues, hv]
    have h0 : (disconnect (connect DecaySetting.normal (State.init : State ℝ))).barValues 1
        = 0 := rfl
    rw [h0]
    norm_num
  · exact (processSpectrumData_isConnected _ _ _ _).2

end LateFrames

/-! ## C6: the attack, channel by channel and in both engines -/

section AttackPerChannel

variable {α : Type} [LinearOrderedField α]

theorem vuTicks_attack_left (T : α) (ticks : List (DecaySetting × α))
    (hticks : ∀ p ∈ ticks, 0 ≤ p.2 ∧ p.2 * speed p.1 < 1) :
    ∀ s : State α, s.targetVolL = T →
      (0 ≤ s.volL ∧ s.volL ≤ T ∧ (s.volL = 0 ∨ 0.005 ≤ s.volL)) →
      (vuTicks ticks s).targetVolL = T ∧
        (0 ≤ (vuTicks ticks s).volL ∧ (vuTicks ticks s).volL ≤ T ∧
          ((vuTicks ticks s).volL = 0 ∨ 0.005 ≤ (vuTicks ticks s).volL)) := by
  induction ticks with
  | nil => intro s ht h; exact ⟨ht, h⟩
  | cons p ticks ih =>
    intro s ht h
    have hp := hticks p (List.mem_cons_self p ticks)
    have hch := vuChannel_attack (speed p.1) p.2 T s.volL (speed_pos p.1) hp.1 hp.2
      h.1 h.2.1 h.2.2
    refine ih (fun q hq => hticks q (List.mem_cons_of_mem p hq)) _ ht ?_
    rw [updateVuPhysics_volL, ht]
    exact ⟨le_trans h.1 hch.1, hch.2.1, hch.2.2⟩

theorem vuTicks_attack_right (T : α) (ticks : List (DecaySetting × α))
    (hticks : ∀ p ∈ ticks, 0 ≤ p.2 ∧ p.2 * speed p.1 < 1) :
    ∀ s : State α, s.targetVolR = T →
      (0 ≤ s.volR ∧ s.volR ≤ T ∧ (s.volR = 0 ∨ 0.005 ≤ s.volR)) →
      (vuTicks ticks s).targetVolR = T ∧
        (0 ≤ (vuTicks ticks s).volR ∧ (vuTicks ticks s).volR ≤ T ∧
          ((vuTicks ticks s).volR = 0 ∨ 0.005 ≤ (vuTicks ticks s).volR)) := by
  induction ticks with
  | nil => intro s ht h; exact ⟨ht, h⟩
  | cons p ticks ih =>
    intro s ht h
    have hp := hticks p (List.mem_cons_self p ticks)
    have hch := vuChannel_attack (speed p.1) p.2 T s.volR (speed_pos p.1) hp.1 hp.2
      h.1 h.2.1 h.2.2
    refine ih (fun q hq => hticks q (List.mem_cons_of_mem p hq)) _ ht ?_
    rw [updateVuPhysics_volR, ht]
    exact ⟨le_trans h.1 hch.1, hch.2.1, hch.2.2⟩

/-- A render tick of the connected `webapp.h` engine with elapsed time `d`. -/
theorem WebApp.tick_levels (d : α) (w : WebApp.State α) (hc : w.isConnected = true) :
    ((WebApp.loop (w.lastTime + 1000 * d) w).volL = vuChannel 8.0 d w.targetVolL w.volL ∧
      (WebApp.loop (w.lastTime + 1000 * d) w).volR = vuChannel 8.0 d w.targetVolR w.volR) ∧
    ((WebApp.loop (w.lastTime + 1000 * d) w).targetVolL = w.targetVolL ∧
      (WebApp.loop (w.lastTime + 1000 * d) w).targetVolR = w.targetVolR) ∧
    (WebApp.loop (w.lastTime + 1000 * d) w).isConnected = true := by
  have hd : (w.lastTime + 1000 * d - w.lastTime) / 1000 = d := by field_simp
  have hl := WebApp.loop_levels (w.lastTime + 1000 * d) w hc
  rw [hd] at hl
  refine ⟨hl.1, hl.2, ?_⟩
  have hc2 : ¬ w.isConnected = false := by rw [hc]; exact Bool.noConfusion
  unfold WebApp.loop
  rw [if_neg hc2]
  simp only
  split <;> exact hc

theorem WebApp.vuTicks_attack_left_webapp (T : α) (dts : List α)
    (hdts : ∀ x ∈ dts, 0 ≤ x ∧ x * 8 < 1) :
    ∀ w : WebApp.State α, w.isConnected = true → w.targetVolL = T →
      (0 ≤ w.volL ∧ w.volL ≤ T ∧ (w.volL = 0 ∨ 0.005 ≤ w.volL)) →
      (WebApp.vuTicks dts w).isConnected = true ∧ (WebApp.vuTicks dts w).targetVolL = T ∧
        (0 ≤ (WebApp.vuTicks dts w).volL ∧ (WebApp.vuTicks dts w).volL ≤ T ∧
          ((WebApp.vuTicks dts w).volL = 0 ∨ 0.005 ≤ (WebApp.vuTicks dts w).volL)) := by
  have h8 : (8.0 : α) = 8 := by norm_num
  induction dts with
  | nil => intro w hc ht h; exact ⟨hc, ht, h⟩
  | cons x dts ih =>
    intro w hc ht h
    have hx := hdts x (List.mem_cons_self x dts)
    have hch := vuChannel_attack 8 x T w.volL (by norm_num) hx.1 hx.2 h.1 h.2.1 h.2.2
    have htick := WebApp.tick_levels x w hc
    refine ih (fun q hq => hdts q (List.mem_cons_of_mem x hq)) _ htick.2.2
      (htick.2.1.1.trans ht) ?_
    rw [htick.1.1, ht, h8]
    exact ⟨le_trans h.1 hch.1, hch.2.1, hch.2.2⟩

theorem WebApp.vuTicks_attack_right_webapp (T : α) (dts : List α)
    (hdts : ∀ x ∈ dts, 0 ≤ x ∧ x * 8 < 1) :
    ∀ w : WebApp.State α, w.isConnected = true → w.targetVolR = T →
      (0 ≤ w.volR ∧ w.volR ≤ T ∧ (w.volR = 0 ∨ 0.005 ≤ w.volR)) →
      (WebApp.vuTicks dts w).isConnected = true ∧ (WebApp.vuTicks dts w).targetVolR = T ∧
        (0 ≤ (WebApp.vuTicks dts w).volR ∧ (WebApp.vuTicks dts w).volR ≤ T ∧
          ((WebApp.vuTicks dts w).volR = 0 ∨ 0.005 ≤ (WebApp.vuTicks dts w).volR)) := by
  have h8 : (8.0 : α) = 8 := by norm_num
  induction dts with
  | nil => intro w hc ht h; exact ⟨hc, ht, h⟩
  | cons x dts ih =>
    intro w hc ht h
    have hx := hdts x (List.mem_cons_self x dts)
    have hch := vuChannel_attack 8 x T w.volR (by norm_num) hx.1 hx.2 h.1 h.2.1 h.2.2
    have htick := WebApp.tick_levels x w hc
    refine ih (fun q hq => hdts q (List.mem_cons_of_mem x hq)) _ htick.2.2
      (htick.2.1.2.trans ht) ?_
    rw [htick.1.2, ht, h8]
    exact ⟨le_trans h.1 hch.1, hch.2.1, hch.2.2⟩

/-- C6: attack never overshoots, for each channel with its own target and in both engines.
Run any sequence of VU physics ticks whose `dt` satisfy `dt ≥ 0` and `dt * speed < 1`, and
then one more such tick. A channel that starts at level 0 with a target `T ≥ 0` (in
particular `T` in `[0, 1.2]`) that is held does not decrease in that tick and ends at or
below `T`; this holds for the left and for the right channel of `updateVuPhysics`, whatever
the other channel does, and for both channels of the render tick of `webapp.h` (speed 8,
the tick with elapsed time `d` being `loop(lastTime + 1000 * d)`). With target 1, the
normal setting (speed 8) and `dt = 0.1` the first tick yields exactly `0.8` in both
engines. -/
theorem C6_attack_never_overshoots (s0 : State α) (ticks : List (DecaySetting × α))
    (setting : DecaySetting) (dt : α) (w0 : WebApp.State α) (dts : List α) (d : α)
    (hticks : ∀ p ∈ ticks, 0 ≤ p.2 ∧ p.2 * speed p.1 < 1)
    (hdt : 0 ≤ dt) (hc : dt * speed setting < 1) :
    (s0.volL = 0 ∧ 0 ≤ s0.targetVolL →
      (vuTicks ticks s0).volL ≤ (updateVuPhysics setting dt (vuTicks ticks s0)).volL ∧
      (updateVuPhysics setting dt (vuTicks ticks s0)).volL ≤ s0.targetVolL) ∧
    (s0.volR = 0 ∧ 0 ≤ s0.targetVolR →
      (vuTicks ticks s0).volR ≤ (updateVuPhysics setting dt (vuTicks ticks s0)).volR ∧
      (updateVuPhysics setting dt (vuTicks ticks s0)).volR ≤ s0.targetVolR) ∧
    (w0.isConnected = true ∧ (∀ x ∈ dts, 0 ≤ x ∧ x * 8 < 1) ∧ 0 ≤ d ∧ d * 8 < 1 →
      (w0.volL = 0 ∧ 0 ≤ w0.targetVolL →
        (WebApp.vuTicks dts w0).volL ≤
            (WebApp.loop ((WebApp.vuTicks dts w0).lastTime + 1000 * d)
              (WebApp.vuTicks dts w0)).volL ∧
          (WebApp.loop ((WebApp.vuTicks dts w0).lastTime + 1000 * d)
              (WebApp.vuTicks dts w0)).volL ≤ w0.targetVolL) ∧
      (w0.volR = 0 ∧ 0 ≤ w0.targetVolR →
        (WebApp.vuTicks dts w0).volR ≤
            (WebApp.loop ((WebApp.vuTicks dts w0).lastTime + 1000 * d)
              (WebApp.vuTicks dts w0)).volR ∧
          (WebApp.loop ((WebApp.vuTicks dts w0).lastTime + 1000 * d)
              (WebApp.vuTicks dts w0)).volR ≤ w0.targetVolR)) ∧
    ((updateVuPhysics DecaySetting.normal 0.1
        { (State.init : State α) with targetVolL := 1 }).volL = 0.8 ∧
      (WebApp.loop 100
        { (WebApp.State.init : WebApp.State α) with
          isConnected := true, targetVolL := 1 }).volL = 0.8) := by
  have h8 : (8.0 : α) = 8 := by norm_num
  refine ⟨fun h => ?_, fun h => ?_, fun hw => ⟨fun h => ?_, fun h => ?_⟩, ?_, ?_⟩
  · obtain ⟨ht, h0, hT, hs⟩ := vuTicks_attack_left s0.targetVolL ticks hticks s0 rfl
      ⟨le_of_eq h.1.symm, h.1 ▸ h.2, Or.inl h.1⟩
    have hch := vuChannel_attack (speed setting) dt s0.targetVolL _ (speed_pos setting)
      hdt hc h0 hT hs
    rw [updateVuPhysics_volL, ht]
    exact ⟨hch.1, hch.2.1⟩
  · obtain ⟨ht, h0, hT, hs⟩ := vuTicks_attack_right s0.targetVolR ticks hticks s0 rfl
      ⟨le_of_eq h.1.symm, h.1 ▸ h.2, Or.inl h.1⟩
    have hch := vuChannel_attack (speed setting) dt s0.targetVolR _ (speed_pos setting)
      hdt hc h0 hT hs
    rw [updateVuPhysics_volR, ht]
    exact ⟨hch.1, hch.2.1⟩
  · obtain ⟨hcw, hdts, hd0, hd1⟩ := hw
    obtain ⟨hcon, ht, h0, hT, hs⟩ := WebApp.vuTicks_attack_left_webapp w0.targetVolL dts hdts w0
      hcw rfl ⟨le_of_eq h.1.symm, h.1 ▸ h.2, Or.inl h.1⟩
    have hch := vuChannel_attack 8 d w0.targetVolL _ (by norm_num) hd0 hd1 h0 hT hs
    rw [(WebApp.tick_levels d _ hcon).1.1, ht, h8]
    exact ⟨hch.1, hch.2.1⟩
  · obtain ⟨hcw, hdts, hd0, hd1⟩ := hw
    obtain ⟨hcon, ht, h0, hT, hs⟩ := WebApp.vuTicks_attack_right_webapp w0.targetVolR dts hdts w0
      hcw rfl ⟨le_of_eq h.1.symm, h.1 ▸ h.2, Or.inl h.1⟩
    have hch := vuChannel_attack 8 d w0.targetVolR _ (by norm_num) hd0 hd1 h0 hT hs
    rw [(WebApp.tick_levels d _ hcon).1.2, ht, h8]
    exact ⟨hch.1, hch.2.1⟩
  · rw [updateVuPhysics_volL, speed_normal]
    norm_num [vuChannel, State.init]
  · rw [(WebApp.loop_levels 100 _ rfl).1.1]
    norm_num [vuChannel, WebApp.State.init]

/-- C6 (witness): left target 1 and right target `1/2` (different targets), one earlier tick
at the normal setting with `dt = 0.1`, then a tick at the fast setting with `dt = 0.05`; the
right channel stays at or below its own target. -/
theorem C6_attack_never_overshoots_witness :
    (vuTicks [(DecaySetting.normal, (0.1 : ℚ))]
        { (State.init : State ℚ) with targetVolL := 1, targetVolR := 1 / 2 }).volR ≤
      (updateVuPhysics DecaySetting.fast 0.05
        (vuTicks [(DecaySetting.normal, (0.1 : ℚ))]
          { (State.init : State ℚ) with targetVolL := 1, targetVolR := 1 / 2 })).volR ∧
    (updateVuPhysics DecaySetting.fast 0.05
        (vuTicks [(DecaySetting.normal, (0.1 : ℚ))]
          { (State.init : State ℚ) with targetVolL := 1, targetVolR := 1 / 2 })).volR ≤
      1 / 2 :=
  (C6_attack_never_overshoots
    { (State.init : State ℚ) with targetVolL := 1, targetVolR := 1 / 2 }
    [(DecaySetting.normal, (0.1 : ℚ))] DecaySetting.fast 0.05
    (WebApp.State.init : WebApp.State ℚ) [] 0
    (by
      intro p hp
      rw [List.mem_singleton] at hp
      subst hp
      simp only [speed_normal]
      norm_num)
    (by norm_num) (by rw [speed_fast]; norm_num)).2.1 ⟨rfl, by norm_num⟩

end AttackPerChannel

end MicTalk
